import Mathlib

/-!
Paged reference resolver (precise-code-intel-api-server).

A shallow embedding of `cmd/precise-code-intel-api-server/server/references.go`.

Modelling conventions.

* Go `int` is `Int`, and `len(x)` is `(x.length : Int)`. The sum of two request values,
  `cursor.SkipResults + s.limit` in `handleSameDumpCursor`, wraps at 64 bits as in Go
  (`addInt64`). The model's integers and lists are unbounded where Go's are not: the sum
  wraps when its operands are values of Go's `int` and the slice in hand is one that Go
  can hold (fewer than `2^62` elements); beyond that, where there is no Go behaviour to
  follow, the sum is left as it is. Sums with a length or a count that a collaborator
  reports are left unbounded: they leave the 64-bit range only if a collaborator returns
  rows at an offset next to the largest `int`.
* Go slices are lists; a nil slice and an empty slice are both `[]`.
* The handlers return the Go 4-tuple `(locations, cursor, hasNewCursor, err)` as the
  record `Result`, with `err = none` for a nil error.
* The collaborators (catalog, bundle manager, pager) are fields of records
  parameterised by a monad `m`, so that the same definitions can be read with pure,
  deterministic collaborators (`m = Id`) or with collaborators that carry state.
* Loops whose termination the code does not guarantee take a fuel argument and return
  `none` when the fuel runs out.
-/

namespace Sourcegraph

/-! ## Data model -/

/-- Errors that the resolver creates or passes on. -/
inductive Error where
  | ErrMissingDump
  | unknownCursorPhase (phase : String)
  | other (msg : String)
deriving DecidableEq, Repr

/-- Catalog record of one indexed snapshot (columns selected by `GetPackage`). -/
structure Dump where
  ID : Int
  Commit : String
  Root : String
  VisibleAtTip : Bool
  UploadedAt : Int
  State : String
  FailureSummary : Option String
  FailureStacktrace : Option String
  StartedAt : Option Int
  FinishedAt : Option Int
  TracingContext : String
  RepositoryID : Int
  Indexer : String
deriving DecidableEq, Repr

/-- Range of a location. -/
structure Range where
  StartLine : Int
  StartCharacter : Int
  EndLine : Int
  EndCharacter : Int
deriving DecidableEq, Repr

/-- Raw in-bundle location, as returned by a bundle client. -/
structure Location where
  Path : String
  Range : Range
deriving DecidableEq, Repr

/-- Location rebased on its owning dump. -/
structure ResolvedLocation where
  Dump : Dump
  Path : String
  Range : Range
deriving DecidableEq, Repr

/-- Moniker attached to a range. -/
structure MonikerData where
  Kind : String
  Scheme : String
  Identifier : String
  PackageInformationID : String
deriving DecidableEq, Repr

/-- Package name and version read from a bundle. -/
structure PackageInformationData where
  Name : String
  Version : String
deriving DecidableEq, Repr

/-- Row of the references table: a dump and its Bloom filter (kept abstract as bytes). -/
structure Reference where
  DumpID : Int
  Filter : List Nat
deriving DecidableEq, Repr

/-- Resumable state of the traversal. -/
structure Cursor where
  Phase : String
  DumpID : Int
  Path : String
  Line : Int
  Character : Int
  Monikers : List MonikerData
  SkipResults : Int
  Identifier : String
  Scheme : String
  Name : String
  Version : String
  DumpIDs : List Int
  TotalDumpsWhenBatching : Int
  SkipDumpsWhenBatching : Int
  SkipDumpsInBatch : Int
  SkipResultsInDump : Int
deriving DecidableEq, Repr

/-- The Go zero value `Cursor{}`. -/
def Cursor.zero : Cursor :=
  { Phase := "", DumpID := 0, Path := "", Line := 0, Character := 0, Monikers := [],
    SkipResults := 0, Identifier := "", Scheme := "", Name := "", Version := "",
    DumpIDs := [], TotalDumpsWhenBatching := 0, SkipDumpsWhenBatching := 0,
    SkipDumpsInBatch := 0, SkipResultsInDump := 0 }

/-- The 4-tuple `([]ResolvedLocation, Cursor, bool, error)` returned by the handlers. -/
structure Result where
  locations : List ResolvedLocation
  cursor : Cursor
  hasNewCursor : Bool
  err : Option Error
deriving DecidableEq, Repr

/-- The return `nil, Cursor{}, false, err`. -/
def Result.fail (err : Error) : Result :=
  { locations := [], cursor := Cursor.zero, hasNewCursor := false, err := some err }

/-! ## Collaborators -/

/-- Per-dump bundle client. -/
structure BundleClient (m : Type → Type) where
  References : String → Int → Int → m (Except Error (List Location))
  MonikerResults : String → String → String → Int → Int → m (Except Error (List Location × Int))
  PackageInformation : String → String → m (Except Error PackageInformationData)

/-- Bundle manager client: `BundleClient(dumpID)`. -/
structure BundleManagerClient (m : Type → Type) where
  BundleClient : Int → BundleClient m

/-- Transactional pager over reference rows. -/
structure ReferencePager (m : Type → Type) where
  PageFromOffset : Int → m (Except Error (List Reference))
  CloseTx : Option Error → m (Option Error)

/-- Catalog capability. -/
structure DB (m : Type → Type) where
  GetDumpByID : Int → m (Except Error (Option Dump))
  SameRepoPager : Int → String → String → String → String → Int →
    m (Except Error (Int × ReferencePager m))
  PackageReferencePager : String → String → String → Int → Int →
    m (Except Error (Int × ReferencePager m))

/-- Functions of package `server` that `references.go` calls and that live in other
files of the package; they are taken as parameters. -/
structure Helpers (m : Type → Type) where
  lookupMoniker : DB m → BundleManagerClient m → Int → String → String → MonikerData →
    Int → Int → m (Except Error (List ResolvedLocation × Int))
  applyBloomFilter : List Reference → String → Int → List Reference × Int

/-- The resolver record. -/
structure ReferencePageResolver (m : Type → Type) where
  db : DB m
  bundleManagerClient : BundleManagerClient m
  repositoryID : Int
  commit : String
  remoteDumpLimit : Int
  limit : Int

/-- Whether an integer is a value of Go's `int` (64 bits, two's complement). -/
def isInt64 (x : Int) : Bool :=
  decide (-9223372036854775808 ≤ x) && decide (x < 9223372036854775808)

/-- The 64-bit two's complement value that Go keeps of an integer. -/
def wrapInt64 (x : Int) : Int :=
  (x + 9223372036854775808) % 18446744073709551616 - 9223372036854775808

/-- Go's `a + b` on `int`: the sum wraps at 64 bits. Operands outside the 64-bit range
are not values of Go's `int`; on them the sum is left as it is. -/
def addInt64 (a b : Int) : Int :=
  if isInt64 a && isInt64 b then wrapInt64 (a + b) else a + b

/-- A slice that Go can hold has fewer elements than this (`2^62`): its elements take
more than four bytes each of a 64-bit address space. -/
def maxSliceLen : Nat :=
  4611686018427387904

/-- Modelled from the spec: `sliceLocations` is not in the given sources; it takes the
positions `[lo, hi)` of the list, clamped to the list. -/
def sliceLocations (locations : List Location) (lo hi : Int) : List Location :=
  (locations.take hi.toNat).drop lo.toNat

/-- Modelled from the spec: `resolveLocationsWithDump` is not in the given sources; each
location is paired with the dump and its path is prefixed by the dump root. -/
def resolveLocationsWithDump (dump : Dump) (locations : List Location) :
    List ResolvedLocation :=
  locations.map fun location =>
    { Dump := dump, Path := dump.Root ++ location.Path, Range := location.Range }

/-! ## Phase `same-dump` -/

section Handlers

variable {m : Type → Type} [Monad m]

/-- The loop over `cursor.Monikers` of `handleSameDumpCursor` (lines 80-88). -/
def sameDumpMonikerLoop (bundleClient : BundleClient m) :
    List MonikerData → List Location → m (Except Error (List Location))
  | [], locations => pure (.ok locations)
  | moniker :: rest, locations => do
    match ← bundleClient.MonikerResults "reference" moniker.Scheme moniker.Identifier 0 0 with
    | .error err => pure (.error err)
    | .ok (results, _) => sameDumpMonikerLoop bundleClient rest (locations ++ results)

/-- Handler of phase `same-dump` (lines 61-116). `newOffset` is Go's
`cursor.SkipResults + s.limit` of lines 91 and 93, which wraps at 64 bits. -/
def handleSameDumpCursor (s : ReferencePageResolver m) (cursor : Cursor) : m Result := do
  match ← s.db.GetDumpByID cursor.DumpID with
  | .error err => pure (Result.fail err)
  | .ok none => pure (Result.fail Error.ErrMissingDump)
  | .ok (some dump) =>
    let bundleClient := s.bundleManagerClient.BundleClient dump.ID
    match ← bundleClient.References cursor.Path cursor.Line cursor.Character with
    | .error err => pure (Result.fail err)
    | .ok locations0 =>
      match ← sameDumpMonikerLoop bundleClient cursor.Monikers locations0 with
      | .error err => pure (Result.fail err)
      | .ok locations =>
        -- `cursor.SkipResults + s.limit`: a 64-bit sum whenever `locations` is a slice
        -- that Go can hold
        let newOffset :=
          if locations.length < maxSliceLen then addInt64 cursor.SkipResults s.limit
          else cursor.SkipResults + s.limit
        let resolvedLocations := resolveLocationsWithDump dump
          (sliceLocations locations cursor.SkipResults newOffset)
        if newOffset ≤ (locations.length : Int) then
          let newCursor : Cursor :=
            { Cursor.zero with
              Phase := cursor.Phase, DumpID := cursor.DumpID, Path := cursor.Path,
              Line := cursor.Line, Character := cursor.Character,
              Monikers := cursor.Monikers, SkipResults := newOffset }
          pure { locations := resolvedLocations, cursor := newCursor,
                 hasNewCursor := true, err := none }
        else
          let newCursor : Cursor :=
            { Cursor.zero with
              DumpID := cursor.DumpID, Phase := "definition-monikers", Path := cursor.Path,
              Line := cursor.Line, Character := cursor.Character,
              Monikers := cursor.Monikers, SkipResults := 0 }
          pure { locations := resolvedLocations, cursor := newCursor,
                 hasNewCursor := true, err := none }

/-! ## Phase `definition-monikers` -/

/-- First loop of `handleDefinitionMonikersCursor` (lines 121-146): the pair
`(hasNextPhaseCursor, nextPhaseCursor)`, or the error of `PackageInformation`. -/
def definitionMonikersSeedLoop (s : ReferencePageResolver m) (cursor : Cursor) :
    List MonikerData → m (Except Error (Bool × Cursor))
  | [] => pure (.ok (false, Cursor.zero))
  | moniker :: rest =>
    if moniker.PackageInformationID = "" then
      definitionMonikersSeedLoop s cursor rest
    else do
      match ← (s.bundleManagerClient.BundleClient cursor.DumpID).PackageInformation
          cursor.Path moniker.PackageInformationID with
      | .error err => pure (.error err)
      | .ok packageInformation =>
        pure (.ok (true,
          { Cursor.zero with
            DumpID := cursor.DumpID, Phase := "same-repo", Scheme := moniker.Scheme,
            Identifier := moniker.Identifier, Name := packageInformation.Name,
            Version := packageInformation.Version, DumpIDs := [],
            TotalDumpsWhenBatching := 0, SkipDumpsWhenBatching := 0,
            SkipDumpsInBatch := 0, SkipResultsInDump := 0 }))

/-- Second loop of `handleDefinitionMonikersCursor` (lines 148-175), including the
return after the loop. -/
def definitionMonikersImportLoop (h : Helpers m) (s : ReferencePageResolver m)
    (cursor : Cursor) (hasNextPhaseCursor : Bool) (nextPhaseCursor : Cursor) :
    List MonikerData → m Result
  | [] => pure { locations := [], cursor := nextPhaseCursor,
                 hasNewCursor := hasNextPhaseCursor, err := none }
  | moniker :: rest =>
    if moniker.Kind ≠ "import" then
      definitionMonikersImportLoop h s cursor hasNextPhaseCursor nextPhaseCursor rest
    else do
      match ← h.lookupMoniker s.db s.bundleManagerClient cursor.DumpID cursor.Path
          "reference" moniker s.limit cursor.SkipResults with
      | .error err => pure (Result.fail err)
      | .ok (locations, count) =>
        if locations.length = 0 then
          definitionMonikersImportLoop h s cursor hasNextPhaseCursor nextPhaseCursor rest
        else
          let newOffset := cursor.SkipResults + (locations.length : Int)
          if newOffset < count then
            let newCursor : Cursor :=
              { Cursor.zero with
                Phase := cursor.Phase, DumpID := cursor.DumpID, Path := cursor.Path,
                Monikers := cursor.Monikers, SkipResults := newOffset }
            pure { locations := locations, cursor := newCursor,
                   hasNewCursor := true, err := none }
          else
            pure { locations := locations, cursor := nextPhaseCursor,
                   hasNewCursor := hasNextPhaseCursor, err := none }

/-- Handler of phase `definition-monikers` (lines 118-177). -/
def handleDefinitionMonikersCursor (h : Helpers m) (s : ReferencePageResolver m)
    (cursor : Cursor) : m Result := do
  match ← definitionMonikersSeedLoop s cursor cursor.Monikers with
  | .error err => pure (Result.fail err)
  | .ok (hasNextPhaseCursor, nextPhaseCursor) =>
    definitionMonikersImportLoop h s cursor hasNextPhaseCursor nextPhaseCursor cursor.Monikers

/-! ## Candidate-dump traversal -/

/-- Refill loop of `fooborp` (lines 233-248). `Sum.inl r` is a return of `r` from
inside the loop, `Sum.inr (refs, newOffset)` is the normal exit of the loop, `none` is
fuel exhaustion. -/
def fooborpRefillLoop (h : Helpers m) (pager : ReferencePager m) (identifier : String)
    (limit totalCount : Int) :
    Nat → List Reference → Int → m (Option (Result ⊕ (List Reference × Int)))
  | 0, refs, newOffset =>
    if (refs.length : Int) < limit ∧ newOffset < totalCount then pure none
    else pure (some (.inr (refs, newOffset)))
  | fuel + 1, refs, newOffset =>
    if (refs.length : Int) < limit ∧ newOffset < totalCount then do
      match ← pager.PageFromOffset newOffset with
      | .error err => do
        let closeErr ← pager.CloseTx (some err)
        pure (some (.inl { locations := [], cursor := Cursor.zero,
                           hasNewCursor := false, err := closeErr }))
      | .ok page =>
        if page.length = 0 then
          pure (some (.inr (refs, newOffset)))
        else
          let (filtered, scanned) :=
            h.applyBloomFilter page identifier (limit - (refs.length : Int))
          fooborpRefillLoop h pager identifier limit totalCount fuel
            (refs ++ filtered) (newOffset + scanned)
    else pure (some (.inr (refs, newOffset)))

/-- Drain loop of `fooborp` (lines 266-315), including the return after the loop;
`i` is the index of the head of the remaining `DumpIDs`. -/
def fooborpDrain (s : ReferencePageResolver m) (cursor : Cursor) :
    Nat → List Int → m Result
  | _, [] => pure { locations := [], cursor := Cursor.zero, hasNewCursor := false,
                    err := none }
  | i, batchDumpID :: rest =>
    if (i : Int) < cursor.SkipDumpsInBatch ∨ batchDumpID = cursor.DumpID then
      fooborpDrain s cursor (i + 1) rest
    else do
      match ← s.db.GetDumpByID cursor.DumpID with
      | .error err => pure (Result.fail err)
      | .ok none => fooborpDrain s cursor (i + 1) rest
      | .ok (some dump) =>
        let bundleClient := s.bundleManagerClient.BundleClient dump.ID
        match ← bundleClient.MonikerResults "reference" cursor.Scheme cursor.Identifier
            s.limit cursor.SkipResultsInDump with
        | .error err => pure (Result.fail err)
        | .ok (results, count) =>
          if results.length = 0 then
            fooborpDrain s cursor (i + 1) rest
          else
            let resolvedLocations := resolveLocationsWithDump dump results
            let newResultOffset := cursor.SkipResultsInDump + (results.length : Int)
            if newResultOffset < count then
              pure { locations := resolvedLocations,
                     cursor := { cursor with SkipResultsInDump := newResultOffset },
                     hasNewCursor := true, err := none }
            else if (i : Int) + 1 < (cursor.DumpIDs.length : Int) then
              pure { locations := resolvedLocations,
                     cursor := { cursor with SkipDumpsInBatch := (i : Int) + 1,
                                             SkipResultsInDump := 0 },
                     hasNewCursor := true, err := none }
            else if cursor.SkipDumpsWhenBatching < cursor.TotalDumpsWhenBatching then
              pure { locations := resolvedLocations,
                     cursor := { cursor with DumpIDs := [], SkipDumpsInBatch := 0,
                                             SkipResultsInDump := 0 },
                     hasNewCursor := true, err := none }
            else
              pure { locations := resolvedLocations, cursor := Cursor.zero,
                     hasNewCursor := false, err := none }

/-- The candidate-dump traversal `fooborp` (lines 215-316); `q` opens the pager. -/
def fooborp (h : Helpers m) (s : ReferencePageResolver m) (cursor : Cursor)
    (q : m (Except Error (Int × ReferencePager m))) (fuel : Nat) : m (Option Result) := do
  if cursor.DumpIDs.length = 0 then
    match ← q with
    | .error err => pure (some (Result.fail err))
    | .ok (totalCount, pager) =>
      match ← fooborpRefillLoop h pager cursor.Identifier s.remoteDumpLimit totalCount
          fuel [] cursor.SkipDumpsWhenBatching with
      | none => pure none
      | some (.inl r) => pure (some r)
      | some (.inr (refs, newOffset)) =>
        let dumpIDs := refs.map fun ref => ref.DumpID
        let cursor1 : Cursor :=
          { cursor with DumpIDs := dumpIDs, SkipDumpsWhenBatching := newOffset,
                        TotalDumpsWhenBatching := totalCount }
        match ← pager.CloseTx none with
        | some err => pure (some (Result.fail err))
        | none => do
          let r ← fooborpDrain s cursor1 0 cursor1.DumpIDs
          pure (some r)
  else do
    let r ← fooborpDrain s cursor 0 cursor.DumpIDs
    pure (some r)

/-! ## Phases `same-repo` and `remote-repo` -/

/-- Handler of phase `same-repo` (lines 179-201). -/
def handleSameRepoCursor (h : Helpers m) (s : ReferencePageResolver m) (cursor : Cursor)
    (fuel : Nat) : m (Option Result) := do
  match ← fooborp h s cursor
      (s.db.SameRepoPager s.repositoryID s.commit cursor.Scheme cursor.Name cursor.Version
        s.remoteDumpLimit) fuel with
  | none => pure none
  | some r =>
    if r.err ≠ none ∨ r.hasNewCursor = true then
      pure (some r)
    else
      let newCursor : Cursor :=
        { Cursor.zero with
          DumpID := cursor.DumpID, Phase := "remote-repo", Scheme := cursor.Scheme,
          Identifier := cursor.Identifier, Name := cursor.Name, Version := cursor.Version,
          DumpIDs := [], TotalDumpsWhenBatching := 0, SkipDumpsWhenBatching := 0,
          SkipDumpsInBatch := 0, SkipResultsInDump := 0 }
      pure (some { locations := r.locations, cursor := newCursor, hasNewCursor := true,
                   err := none })

/-- Handler of phase `remote-repo` (lines 203-207). -/
def handleRemoteRepoCursor (h : Helpers m) (s : ReferencePageResolver m) (cursor : Cursor)
    (fuel : Nat) : m (Option Result) :=
  fooborp h s cursor
    (s.db.PackageReferencePager cursor.Scheme cursor.Name cursor.Version s.repositoryID
      s.remoteDumpLimit) fuel

/-! ## Page driver -/

/-- Lookup of the handler by `cursor.Phase` (lines 45-59). -/
def dispatchCursorHandler (h : Helpers m) (s : ReferencePageResolver m) (cursor : Cursor)
    (fuel : Nat) : m (Option Result) := do
  if cursor.Phase = "same-dump" then
    let r ← handleSameDumpCursor s cursor
    pure (some r)
  else if cursor.Phase = "definition-monikers" then
    let r ← handleDefinitionMonikersCursor h s cursor
    pure (some r)
  else if cursor.Phase = "same-repo" then
    handleSameRepoCursor h s cursor fuel
  else if cursor.Phase = "remote-repo" then
    handleRemoteRepoCursor h s cursor fuel
  else
    pure (some (Result.fail (Error.unknownCursorPhase cursor.Phase)))

/-- One pass through the body of the loop of `resolvePage` (lines 34-39) on the named
results `(locations, newCursor, hasNewCursor, err)`, held in `acc`: the updated named
results and whether the `break` is taken. The handler is called on `cursor`, which the
loop never reassigns. `none` is fuel exhaustion inside the handler. -/
def resolvePageBody (h : Helpers m) (s : ReferencePageResolver m) (cursor : Cursor)
    (refillFuel : Nat) (acc : Result) : m (Option (Result × Bool)) := do
  match ← dispatchCursorHandler h s cursor refillFuel with
  | none => pure none
  | some r =>
    pure (some ({ locations := acc.locations ++ r.locations, cursor := r.cursor,
                  hasNewCursor := r.hasNewCursor, err := r.err },
                decide (r.err ≠ none ∨ r.hasNewCursor = false)))

/-- The loop `for s.limit > 0` of `resolvePage` (lines 33-40); `s.limit` is never
written. `none` is fuel exhaustion. -/
def resolvePageLoop (h : Helpers m) (s : ReferencePageResolver m) (cursor : Cursor)
    (refillFuel : Nat) : Nat → Result → m (Option Result)
  | 0, acc => if s.limit > 0 then pure none else pure (some acc)
  | fuel + 1, acc =>
    if s.limit > 0 then do
      match ← resolvePageBody h s cursor refillFuel acc with
      | none => pure none
      | some (acc1, true) => pure (some acc1)
      | some (acc1, false) => resolvePageLoop h s cursor refillFuel fuel acc1
    else pure (some acc)

/-- The driver `resolvePage` (lines 32-43); the named results start at their zero
values. -/
def resolvePage (h : Helpers m) (s : ReferencePageResolver m) (cursor : Cursor)
    (fuel : Nat) : m (Option Result) :=
  resolvePageLoop h s cursor fuel fuel
    { locations := [], cursor := Cursor.zero, hasNewCursor := false, err := none }

/-- Construction of the resolver in `Server.references` (lines 11-21): `remoteDumpLimit`
is not set and keeps its zero value. -/
def references (h : Helpers m) (db : DB m) (bundleManagerClient : BundleManagerClient m)
    (repositoryID : Int) (commit : String) (limit : Int) (cursor : Cursor) (fuel : Nat) :
    m (Option Result) :=
  resolvePage h
    { db := db, bundleManagerClient := bundleManagerClient, repositoryID := repositoryID,
      commit := commit, remoteDumpLimit := 0, limit := limit } cursor fuel

end Handlers

/-! ## Package lookup (`db/packages.go`) -/

section Packages

variable {m : Type → Type} [Monad m]

/-- The Go zero value `Dump{}`. -/
def Dump.zero : Dump :=
  { ID := 0, Commit := "", Root := "", VisibleAtTip := false, UploadedAt := 0, State := "",
    FailureSummary := none, FailureStacktrace := none, StartedAt := none, FinishedAt := none,
    TracingContext := "", RepositoryID := 0, Indexer := "" }

/-- The error `sql.ErrNoRows` of the Go standard library. -/
def sqlErrNoRows : Error :=
  Error.other "sql: no rows in result set"

/-- Modelled from the spec: `ignoreErrNoRows` is not in the given sources; an absent row
is a normal outcome, so the no-rows error becomes nil and any other error is kept. -/
def ignoreErrNoRows (err : Error) : Option Error :=
  if err = sqlErrNoRows then none else some err

/-- The method `GetPackage` (packages.go 9-37). `scanDumpQueryRow scheme name version` is
the outcome of `scanDump(db.queryRow(ctx, query))` for the query of lines 10-29, which
is evaluated by the database: the scanned dump or the scan error. The result is the Go
triple `(Dump, bool, error)`. -/
def GetPackage (scanDumpQueryRow : String → String → String → m (Except Error Dump))
    (scheme name version : String) : m (Dump × Bool × Option Error) := do
  match ← scanDumpQueryRow scheme name version with
  | .error err => pure (Dump.zero, false, ignoreErrNoRows err)
  | .ok dump => pure (dump, true, none)

end Packages

/-! ## Call traces

The log of collaborator calls. `Traced` is the state monad over that log: a collaborator
in `Traced` may read the calls made so far (so it can model a backend whose answers
change over time) and appends its own call. -/

/-- One call of a collaborator, with its arguments. -/
inductive Event where
  | getDumpByID (id : Int)
  | sameRepoPager (repositoryID : Int) (commit scheme name version : String) (limit : Int)
  | packageReferencePager (scheme name version : String) (repositoryID : Int) (limit : Int)
  | pageFromOffset (offset : Int)
  | closeTx (err : Option Error)
  | references (dumpID : Int) (path : String) (line character : Int)
  | monikerResults (dumpID : Int) (kind scheme identifier : String) (limit skip : Int)
  | packageInformation (dumpID : Int) (path packageInformationID : String)
  | lookupMoniker (dumpID : Int) (path kind : String) (moniker : MonikerData)
      (limit skip : Int)
deriving DecidableEq, Repr

/-- A computation over the log of calls made so far. -/
def Traced (α : Type) : Type :=
  List Event → α × List Event

instance : Monad Traced where
  pure a := fun log => (a, log)
  bind x f := fun log => f (x log).1 (x log).2

/-- Run a traced computation from the given log. -/
def Traced.run {α : Type} (x : Traced α) (log : List Event) : α × List Event :=
  x log

/-- A call that answers `v` and records `ev`. -/
def Traced.call {α : Type} (ev : Event) (v : α) : Traced α :=
  fun log => (v, log ++ [ev])

/-- The bundle client of dump `dumpID`, recording its calls. -/
def traceBundleClient (dumpID : Int) (b : BundleClient Id) : BundleClient Traced :=
  { References := fun path line character =>
      Traced.call (Event.references dumpID path line character)
        (b.References path line character),
    MonikerResults := fun kind scheme identifier limit skip =>
      Traced.call (Event.monikerResults dumpID kind scheme identifier limit skip)
        (b.MonikerResults kind scheme identifier limit skip),
    PackageInformation := fun path id =>
      Traced.call (Event.packageInformation dumpID path id) (b.PackageInformation path id) }

/-- A bundle manager client whose bundle clients record their calls. -/
def traceBundleManagerClient (bmc : BundleManagerClient Id) : BundleManagerClient Traced :=
  { BundleClient := fun dumpID => traceBundleClient dumpID (bmc.BundleClient dumpID) }

/-- A pager that records its calls. -/
def tracePager (pager : ReferencePager Id) : ReferencePager Traced :=
  { PageFromOffset := fun offset =>
      Traced.call (Event.pageFromOffset offset) (pager.PageFromOffset offset),
    CloseTx := fun err => Traced.call (Event.closeTx err) (pager.CloseTx err) }

/-- The outcome of a pager factory, with the pager recording its calls. -/
def tracePagerResult (r : Except Error (Int × ReferencePager Id)) :
    Except Error (Int × ReferencePager Traced) :=
  match r with
  | .error err => .error err
  | .ok (totalCount, pager) => .ok (totalCount, tracePager pager)

/-- A catalog that records its calls. -/
def traceDB (db : DB Id) : DB Traced :=
  { GetDumpByID := fun id => Traced.call (Event.getDumpByID id) (db.GetDumpByID id),
    SameRepoPager := fun repositoryID commit scheme name version limit =>
      Traced.call (Event.sameRepoPager repositoryID commit scheme name version limit)
        (tracePagerResult (db.SameRepoPager repositoryID commit scheme name version limit)),
    PackageReferencePager := fun scheme name version repositoryID limit =>
      Traced.call (Event.packageReferencePager scheme name version repositoryID limit)
        (tracePagerResult
          (db.PackageReferencePager scheme name version repositoryID limit)) }

/-- A resolver whose collaborators record their calls. -/
def traceResolver (s : ReferencePageResolver Id) : ReferencePageResolver Traced :=
  { db := traceDB s.db, bundleManagerClient := traceBundleManagerClient s.bundleManagerClient,
    repositoryID := s.repositoryID, commit := s.commit,
    remoteDumpLimit := s.remoteDumpLimit, limit := s.limit }

/-- The helpers of resolver `s`, with the moniker lookup recorded as one call. -/
def traceHelpers (h : Helpers Id) (s : ReferencePageResolver Id) : Helpers Traced :=
  { lookupMoniker := fun _ _ dumpID path kind moniker limit skip =>
      Traced.call (Event.lookupMoniker dumpID path kind moniker limit skip)
        (h.lookupMoniker s.db s.bundleManagerClient dumpID path kind moniker limit skip),
    applyBloomFilter := h.applyBloomFilter }

/-- The resolver that `Server.references` builds (lines 12-18). -/
def referencesResolver {m : Type → Type} (db : DB m)
    (bundleManagerClient : BundleManagerClient m) (repositoryID : Int) (commit : String)
    (limit : Int) : ReferencePageResolver m :=
  { db := db, bundleManagerClient := bundleManagerClient, repositoryID := repositoryID,
    commit := commit, remoteDumpLimit := 0, limit := limit }

/-! ## Test doubles

Deterministic collaborators used to evaluate the definitions on concrete inputs. -/

/-- A dump with the given id and root `sub/`. -/
def sampleDump (id : Int) : Dump :=
  { ID := id, Commit := "deadbeef", Root := "sub/", VisibleAtTip := true, UploadedAt := 0,
    State := "completed", FailureSummary := none, FailureStacktrace := none,
    StartedAt := none, FinishedAt := none, TracingContext := "", RepositoryID := 50,
    Indexer := "lsif-go" }

/-- A location in `main.go` on the given line. -/
def sampleLocation (line : Int) : Location :=
  { Path := "main.go",
    Range := { StartLine := line, StartCharacter := 0, EndLine := line, EndCharacter := 5 } }

/-- A bundle client whose `References` are `refs` and whose `MonikerResults` page
through `all` (`limit = 0` means all), reporting `len(all)` as the total count. -/
def sampleBundleClient (refs all : List Location) : BundleClient Id :=
  { References := fun _ _ _ => .ok refs,
    MonikerResults := fun _ _ _ limit skip =>
      .ok (if limit = 0 then all.drop skip.toNat else sliceLocations all skip (skip + limit),
           (all.length : Int)),
    PackageInformation := fun _ _ => .ok { Name := "pkg", Version := "1.0.0" } }

/-- A pager over no rows. -/
def samplePager : ReferencePager Id :=
  { PageFromOffset := fun _ => .ok [], CloseTx := fun err => err }

/-- A catalog that knows exactly the dumps of `dumps`. -/
def sampleDB (dumps : List Dump) : DB Id :=
  { GetDumpByID := fun id => .ok (dumps.find? fun d => decide (d.ID = id)),
    SameRepoPager := fun _ _ _ _ _ _ => .ok (0, samplePager),
    PackageReferencePager := fun _ _ _ _ _ => .ok (0, samplePager) }

/-- Helpers whose moniker lookup finds `found` (skipping `skip`, at most `limit`) and
whose Bloom filter accepts every row. -/
def sampleHelpers (found : List ResolvedLocation) : Helpers Id :=
  { lookupMoniker := fun _ _ _ _ _ _ limit skip =>
      .ok ((found.drop skip.toNat).take limit.toNat, (found.length : Int)),
    applyBloomFilter := fun page _ _ => (page, (page.length : Int)) }

/-- A resolver over the test doubles. -/
def sampleResolver (dumps : List Dump) (refs all : List Location) (limit : Int) :
    ReferencePageResolver Id :=
  { db := sampleDB dumps,
    bundleManagerClient := { BundleClient := fun _ => sampleBundleClient refs all },
    repositoryID := 50, commit := "deadbeef", remoteDumpLimit := 0, limit := limit }

/-- Scenario S1: the same-dump cursor at `SkipResults = 0` with no monikers. -/
def sameDumpCursor (dumpID : Int) : Cursor :=
  { Cursor.zero with Phase := "same-dump", DumpID := dumpID, Path := "main.go",
                     Line := 10, Character := 2 }

/-- A remote-repo cursor of originating dump `dumpID` that holds the batch `dumpIDs`. -/
def remoteRepoCursor (dumpID : Int) (dumpIDs : List Int) : Cursor :=
  { Cursor.zero with Phase := "remote-repo", DumpID := dumpID, Scheme := "gomod",
                     Identifier := "pkg:Foo", Name := "pkg", Version := "1.0.0",
                     DumpIDs := dumpIDs }

/-- A pager over `rows` that serves pages of two rows. -/
def sampleRowsPager (rows : List Reference) : ReferencePager Id :=
  { PageFromOffset := fun offset => .ok ((rows.drop offset.toNat).take 2),
    CloseTx := fun err => err }

/-- A catalog that knows the dumps of `dumps` and whose pagers range over `rows`. -/
def sampleRowsDB (dumps : List Dump) (rows : List Reference) : DB Id :=
  { GetDumpByID := fun id => .ok (dumps.find? fun d => decide (d.ID = id)),
    SameRepoPager := fun _ _ _ _ _ _ => .ok ((rows.length : Int), sampleRowsPager rows),
    PackageReferencePager := fun _ _ _ _ _ => .ok ((rows.length : Int), sampleRowsPager rows) }

/-- A resolver over `sampleRowsDB` with the given `remoteDumpLimit`. -/
def sampleRowsResolver (dumps : List Dump) (rows : List Reference) (all : List Location)
    (remoteDumpLimit limit : Int) : ReferencePageResolver Id :=
  { db := sampleRowsDB dumps rows,
    bundleManagerClient := { BundleClient := fun _ => sampleBundleClient [] all },
    repositoryID := 50, commit := "deadbeef", remoteDumpLimit := remoteDumpLimit,
    limit := limit }

/-- Whether the log holds a catalog lookup. -/
def hasCatalogLookup (log : List Event) : Bool :=
  log.any fun ev =>
    match ev with
    | Event.getDumpByID _ => true
    | _ => false

/-- A catalog whose first `GetDumpByID` finds the dump and whose later ones fail (a
backend that goes away during the request); its calls are recorded. -/
def flakyDB : DB Traced :=
  { GetDumpByID := fun id log =>
      (if hasCatalogLookup log then .error (Error.other "connection reset")
       else .ok (some (sampleDump id)),
       log ++ [Event.getDumpByID id]),
    SameRepoPager := fun repositoryID commit scheme name version limit =>
      Traced.call (Event.sameRepoPager repositoryID commit scheme name version limit)
        (.ok (0, tracePager samplePager)),
    PackageReferencePager := fun scheme name version repositoryID limit =>
      Traced.call (Event.packageReferencePager scheme name version repositoryID limit)
        (.ok (0, tracePager samplePager)) }

/-- A resolver over `flakyDB` whose bundles hold the references `refs`. -/
def flakyResolver (refs : List Location) (limit : Int) : ReferencePageResolver Traced :=
  { db := flakyDB,
    bundleManagerClient :=
      traceBundleManagerClient { BundleClient := fun _ => sampleBundleClient refs [] },
    repositoryID := 50, commit := "deadbeef", remoteDumpLimit := 0, limit := limit }

/-- Helpers whose Bloom filter accepts every row and stops once `limit` rows are
accepted, reporting the number of rows it consumed. -/
def sampleBloomHelpers : Helpers Id :=
  { lookupMoniker := fun _ _ _ _ _ _ _ _ => .ok ([], 0),
    applyBloomFilter := fun page _ limit =>
      (page.take limit.toNat, ((min page.length limit.toNat : Nat) : Int)) }

/-! ## Specification-side definitions -/

/-- Elements of `xs` whose position `k` satisfies `lo ≤ k < hi`, in order. -/
def elementsAt {α : Type} (xs : List α) (lo hi : Int) : List α :=
  ((xs.enum.filter fun p => decide (lo ≤ (p.1 : Int) ∧ (p.1 : Int) < hi)).map Prod.snd)

/-- The four phase names in their enumeration order. -/
def phaseOrder : List String :=
  ["same-dump", "definition-monikers", "same-repo", "remote-repo"]

/-- Position of a phase name in the enumeration order (4 for any other string). -/
def phaseRank (phase : String) : Nat :=
  phaseOrder.indexOf phase

/-- The step from cursor `c` to the next cursor of `r` is monotonic: the next phase is one
of the four phase names and does not come before the phase of `c`. -/
def PhaseStepMonotonic (c : Cursor) (r : Result) : Prop :=
  r.cursor.Phase ∈ phaseOrder ∧ phaseRank c.Phase ≤ phaseRank r.cursor.Phase

/-- The next-phase seed of the definition-monikers phase for the moniker `mk` and its
package information: phase `same-repo`, the originating dump, the scheme and identifier
of the moniker, the package name and version, no batch and zero counters. -/
def seedCursor (c : Cursor) (mk : MonikerData) (pkg : PackageInformationData) : Cursor :=
  { Cursor.zero with
    Phase := "same-repo", DumpID := c.DumpID, Scheme := mk.Scheme,
    Identifier := mk.Identifier, Name := pkg.Name, Version := pkg.Version, DumpIDs := [],
    TotalDumpsWhenBatching := 0, SkipDumpsWhenBatching := 0, SkipDumpsInBatch := 0,
    SkipResultsInDump := 0 }

/-- The seed of a definition-monikers cursor, if any: built from the first moniker with a
non-empty `PackageInformationID`. -/
def seedOf (c : Cursor) (pkg : PackageInformationData) : Option Cursor :=
  (c.Monikers.find? fun mk => decide (mk.PackageInformationID ≠ "")).map
    fun mk => seedCursor c mk pkg

/-- The guard of the drain loop (line 269): index `i`, holding `batchDumpID`, is passed
over because it lies before `SkipDumpsInBatch` or names the originating dump. -/
def drainGuard (c : Cursor) (i : Nat) (batchDumpID : Int) : Prop :=
  (i : Int) < c.SkipDumpsInBatch ∨ batchDumpID = c.DumpID

/-- The drain step on cursor `c` makes its bundle query at index `i` and the query
returns the non-empty result set `results` with total `count`: `i` is an index of
`DumpIDs` that the guard does not pass over, every earlier index is passed over by the
guard, the catalog lookup of line 273 finds `d`, and the bundle of `d` answers
`(results, count)`. (With deterministic collaborators the lookup and the query have the
same arguments at every index, so a query that returns results is the first one made.) -/
def DrainQueryAt (s : ReferencePageResolver Id) (c : Cursor) (i : Nat) (d : Dump)
    (results : List Location) (count : Int) : Prop :=
  i < c.DumpIDs.length ∧
  (∀ (j : Nat) (b : Int), c.DumpIDs[j]? = some b → j < i → drainGuard c j b) ∧
  (∀ b : Int, c.DumpIDs[i]? = some b → ¬ drainGuard c i b) ∧
  s.db.GetDumpByID c.DumpID = .ok (some d) ∧
  (s.bundleManagerClient.BundleClient d.ID).MonikerResults "reference" c.Scheme c.Identifier
    s.limit c.SkipResultsInDump = .ok (results, count) ∧
  results ≠ []

/-- What the drain loop returns when it emits `resolved` at index `i` (lines 291-312). -/
def drainOutcome (c : Cursor) (i : Nat) (resolved : List ResolvedLocation) (len count : Int) :
    Result :=
  if c.SkipResultsInDump + len < count then
    { locations := resolved,
      cursor := { c with SkipResultsInDump := c.SkipResultsInDump + len },
      hasNewCursor := true, err := none }
  else if (i : Int) + 1 < (c.DumpIDs.length : Int) then
    { locations := resolved,
      cursor := { c with SkipDumpsInBatch := (i : Int) + 1, SkipResultsInDump := 0 },
      hasNewCursor := true, err := none }
  else if c.SkipDumpsWhenBatching < c.TotalDumpsWhenBatching then
    { locations := resolved,
      cursor := { c with DumpIDs := [], SkipDumpsInBatch := 0, SkipResultsInDump := 0 },
      hasNewCursor := true, err := none }
  else
    { locations := resolved, cursor := Cursor.zero, hasNewCursor := false, err := none }

/-- A moniker of kind `import` with package information `p`. -/
def sampleMoniker : MonikerData :=
  { Kind := "import", Scheme := "gomod", Identifier := "pkg:Foo", PackageInformationID := "p" }

/-- Whether the event is a `PageFromOffset` call. -/
def Event.isPageFromOffset (ev : Event) : Bool :=
  match ev with
  | Event.pageFromOffset _ => true
  | _ => false

/-- Whether the event is a `CloseTx` call. -/
def Event.isCloseTx (ev : Event) : Bool :=
  match ev with
  | Event.closeTx _ => true
  | _ => false

/-- Whether the event is a call that opens a pager or a call on a pager. -/
def Event.isPagerCall (ev : Event) : Bool :=
  match ev with
  | Event.sameRepoPager _ _ _ _ _ _ => true
  | Event.packageReferencePager _ _ _ _ _ => true
  | Event.pageFromOffset _ => true
  | Event.closeTx _ => true
  | _ => false

/-- The cursor that the `n`-th re-application of `handleSameDumpCursor` receives, when
the handler is first applied to `c` and then to the cursor it returned. -/
def sameDumpCursorAfter (s : ReferencePageResolver Id) (c : Cursor) : Nat → Cursor
  | 0 => c
  | n + 1 => (handleSameDumpCursor s (sameDumpCursorAfter s c n)).cursor

/-- The concatenation of the batches emitted by the first `n` applications. -/
def sameDumpBatches (s : ReferencePageResolver Id) (c : Cursor) (n : Nat) :
    List ResolvedLocation :=
  ((List.range n).map fun k =>
    (handleSameDumpCursor s (sameDumpCursorAfter s c k)).locations).flatten

/-! ## Theorems -/

/-- An integer in the 64-bit range is its own 64-bit value. -/
theorem wrapInt64_of_isInt64 (x : Int) (hx : isInt64 x = true) : wrapInt64 x = x := by
  simp only [isInt64, Bool.and_eq_true, decide_eq_true_eq] at hx
  unfold wrapInt64
  omega

/-- A sum that stays in the 64-bit range does not wrap. -/
theorem addInt64_of_isInt64 (a b : Int) (hab : isInt64 (a + b) = true) :
    addInt64 a b = a + b := by
  unfold addInt64
  split
  · exact wrapInt64_of_isInt64 _ hab
  · rfl

/-- The new offset of the same-dump handler when the sum stays in the 64-bit range. -/
theorem sameDump_newOffset (n : Nat) (a b : Int) (hab : isInt64 (a + b) = true) :
    (if n < maxSliceLen then addInt64 a b else a + b) = a + b := by
  split
  · exact addInt64_of_isInt64 a b hab
  · rfl


/-- When the first handler call succeeds with a next cursor and the limit is positive,
the loop of `resolvePage` never leaves: every pass calls the handler on the same cursor. -/
theorem resolvePageLoop_never_returns (h : Helpers Id) (s : ReferencePageResolver Id)
    (c : Cursor) (refillFuel : Nat) (r : Result) (hlimit : 0 < s.limit)
    (hr : dispatchCursorHandler h s c refillFuel = some r)
    (herr : r.err = none) (hnext : r.hasNewCursor = true) (fuel : Nat) (acc : Result) :
    resolvePageLoop h s c refillFuel fuel acc = none := by
  induction fuel generalizing acc with
  | zero => simp [resolvePageLoop, hlimit]
  | succ n ih =>
    have hb : resolvePageBody h s c refillFuel acc =
        some ({ locations := acc.locations ++ r.locations, cursor := r.cursor,
                hasNewCursor := r.hasNewCursor, err := r.err }, false) := by
      simp [resolvePageBody, hr, herr, hnext]
    simp only [resolvePageLoop, hlimit, gt_iff_lt, if_true, hb, Id.bind_eq, bind]
    exact ih _

/-- A next cursor returned by the drain loop has the phase of the input cursor. -/
theorem fooborpDrain_phase (s : ReferencePageResolver Id) (c : Cursor) (l : List Int) :
    ∀ i : Nat, (fooborpDrain s c i l).hasNewCursor = true →
      (fooborpDrain s c i l).cursor.Phase = c.Phase := by
  induction l with
  | nil => intro i; simp [fooborpDrain]
  | cons b rest ih =>
    intro i
    simp only [fooborpDrain, Id.bind_eq, Id.pure_eq, bind, pure]
    split
    · exact ih (i + 1)
    · split
      · simp [Result.fail]
      · exact ih (i + 1)
      · split
        · simp [Result.fail]
        · split
          · exact ih (i + 1)
          · split
            · simp
            · split
              · simp
              · split
                · simp
                · simp

/-- A return from inside the refill loop carries no locations and no next cursor. -/
theorem fooborpRefillLoop_inl (h : Helpers Id) (pager : ReferencePager Id) (identifier : String)
    (limit totalCount : Int) (fuel : Nat) :
    ∀ (refs : List Reference) (newOffset : Int) (r : Result),
      fooborpRefillLoop h pager identifier limit totalCount fuel refs newOffset
        = some (.inl r) → r.hasNewCursor = false ∧ r.locations = [] := by
  induction fuel with
  | zero =>
    intro refs newOffset r hr
    change @Eq (Option (Result ⊕ (List Reference × Int))) _ _ at hr
    simp only [fooborpRefillLoop, Id.pure_eq, pure] at hr
    split at hr <;> simp at hr
  | succ n ih =>
    intro refs newOffset r hr
    change @Eq (Option (Result ⊕ (List Reference × Int))) _ _ at hr
    simp only [fooborpRefillLoop, Id.bind_eq, Id.pure_eq, bind, pure] at hr
    split at hr
    · split at hr
      · simp only [Option.some.injEq, Sum.inl.injEq] at hr
        subst hr
        simp
      · split at hr
        · simp at hr
        · exact ih _ _ r hr
    · simp at hr

/-- A next cursor returned by `fooborp` has the phase of the input cursor. -/
theorem fooborp_phase (h : Helpers Id) (s : ReferencePageResolver Id) (c : Cursor)
    (q : Id (Except Error (Int × ReferencePager Id))) (fuel : Nat) (r : Result)
    (hr : fooborp h s c q fuel = some r) (hnext : r.hasNewCursor = true) :
    r.cursor.Phase = c.Phase := by
  change @Eq (Option Result) _ _ at hr
  simp only [fooborp, Id.bind_eq, Id.pure_eq, bind, pure] at hr
  split at hr
  · split at hr
    · simp only [Option.some.injEq] at hr
      subst hr
      simp [Result.fail] at hnext
    · split at hr
      · simp at hr
      · rename_i r1 hloop
        simp only [Option.some.injEq] at hr
        subst hr
        have := (fooborpRefillLoop_inl h _ _ _ _ _ _ _ _ hloop).1
        simp [this] at hnext
      · split at hr
        · simp only [Option.some.injEq] at hr
          subst hr
          simp [Result.fail] at hnext
        · simp only [Option.some.injEq] at hr
          subst hr
          exact fooborpDrain_phase s _ _ 0 hnext
  · simp only [Option.some.injEq] at hr
    subst hr
    exact fooborpDrain_phase s c _ 0 hnext

/-- A seed found by the first loop of the definition-monikers handler is `same-repo`. -/
theorem definitionMonikersSeedLoop_phase (s : ReferencePageResolver Id) (c : Cursor)
    (l : List MonikerData) (cur : Cursor)
    (hl : definitionMonikersSeedLoop s c l = .ok (true, cur)) : cur.Phase = "same-repo" := by
  change @Eq (Except Error (Bool × Cursor)) _ _ at hl
  induction l with
  | nil => simp [definitionMonikersSeedLoop, pure] at hl
  | cons mk rest ih =>
    simp only [definitionMonikersSeedLoop, Id.bind_eq, Id.pure_eq, bind, pure] at hl
    split at hl
    · exact ih hl
    · split at hl
      · simp at hl
      · simp only [Except.ok.injEq, Prod.mk.injEq, true_and] at hl
        subst hl
        rfl

/-- The import loop returns a cursor of the input phase, or the seed it was given, or no
next cursor. -/
theorem definitionMonikersImportLoop_phase (h : Helpers Id) (s : ReferencePageResolver Id)
    (c : Cursor) (b : Bool) (cur : Cursor) (l : List MonikerData) :
    (definitionMonikersImportLoop h s c b cur l).cursor.Phase = c.Phase ∨
      ((definitionMonikersImportLoop h s c b cur l).hasNewCursor = b ∧
        (definitionMonikersImportLoop h s c b cur l).cursor = cur) ∨
      (definitionMonikersImportLoop h s c b cur l).hasNewCursor = false := by
  induction l with
  | nil => exact Or.inr (Or.inl ⟨rfl, rfl⟩)
  | cons mk rest ih =>
    simp only [definitionMonikersImportLoop, Id.bind_eq, Id.pure_eq, bind, pure]
    split
    · exact ih
    · split
      · exact Or.inr (Or.inr rfl)
      · split
        · exact ih
        · split
          · exact Or.inl rfl
          · exact Or.inr (Or.inl ⟨rfl, rfl⟩)

/-- The first loop of the definition-monikers handler computes the seed of the first
moniker with a non-empty `PackageInformationID`. -/
theorem definitionMonikersSeedLoop_eq (s : ReferencePageResolver Id) (c : Cursor)
    (pkg : PackageInformationData) (l : List MonikerData)
    (hpkg : ∀ mk, l.find? (fun mk => decide (mk.PackageInformationID ≠ "")) = some mk →
      (s.bundleManagerClient.BundleClient c.DumpID).PackageInformation c.Path
        mk.PackageInformationID = .ok pkg) :
    definitionMonikersSeedLoop s c l
      = .ok (((l.find? fun mk => decide (mk.PackageInformationID ≠ "")).map
                fun mk => seedCursor c mk pkg).isSome,
             ((l.find? fun mk => decide (mk.PackageInformationID ≠ "")).map
                fun mk => seedCursor c mk pkg).getD Cursor.zero) := by
  induction l with
  | nil => rfl
  | cons mk rest ih =>
    by_cases hid : mk.PackageInformationID = ""
    · have hrest := ih (fun x hx => hpkg x (by simpa [List.find?_cons, hid] using hx))
      simpa [definitionMonikersSeedLoop, List.find?_cons, hid] using hrest
    · have hcall := hpkg mk (by simp [List.find?_cons, hid])
      simp only [definitionMonikersSeedLoop, hid, if_false, hcall, Id.bind_eq, Id.pure_eq,
        bind, pure]
      simp [List.find?_cons, hid, seedCursor, Cursor.zero]

/-- The import loop passes over monikers that are not imports or whose lookup is empty. -/
theorem definitionMonikersImportLoop_skip (h : Helpers Id) (s : ReferencePageResolver Id)
    (c : Cursor) (b : Bool) (cur : Cursor) (pre rest : List MonikerData)
    (hpre : ∀ x ∈ pre, x.Kind = "import" → ∃ n,
      h.lookupMoniker s.db s.bundleManagerClient c.DumpID c.Path "reference" x s.limit
        c.SkipResults = .ok ([], n)) :
    definitionMonikersImportLoop h s c b cur (pre ++ rest)
      = definitionMonikersImportLoop h s c b cur rest := by
  induction pre with
  | nil => rfl
  | cons x pre ih =>
    have ih1 := ih (fun y hy => hpre y (by simp [hy]))
    by_cases hk : x.Kind = "import"
    · obtain ⟨n, hn⟩ := hpre x (by simp) hk
      simp only [List.cons_append, definitionMonikersImportLoop, hk, hn, Id.bind_eq,
        Id.pure_eq, bind, pure]
      simpa using ih1
    · simp only [List.cons_append, definitionMonikersImportLoop, Id.bind_eq, Id.pure_eq,
        bind, pure]
      simpa [hk] using ih1

/-- The drain loop passes over a run of indices that satisfy the guard. -/
theorem fooborpDrain_skip (s : ReferencePageResolver Id) (c : Cursor) (pre rest : List Int) :
    ∀ k : Nat, (∀ (j : Nat) (b : Int), pre[j]? = some b → drainGuard c (k + j) b) →
      fooborpDrain s c k (pre ++ rest) = fooborpDrain s c (k + pre.length) rest := by
  induction pre with
  | nil => intro k _; rfl
  | cons x pre ih =>
    intro k hg
    have hx : drainGuard c k x := by simpa using hg 0 x (by simp)
    have hrest := ih (k + 1) (fun j b hj => by
      have := hg (j + 1) b (by simpa using hj)
      simpa [Nat.add_assoc, Nat.add_comm 1 j] using this)
    have hstep : fooborpDrain s c k (x :: (pre ++ rest))
        = fooborpDrain s c (k + 1) (pre ++ rest) := by
      unfold drainGuard at hx
      simp only [fooborpDrain, hx, if_true]
    rw [List.cons_append, hstep, hrest, List.length_cons]
    congr 1
    omega

/-- The drain loop, when its query is made at index `i`, returns `drainOutcome` there. -/
theorem fooborpDrain_at (s : ReferencePageResolver Id) (c : Cursor) (i : Nat) (d : Dump)
    (results : List Location) (count : Int) (hq : DrainQueryAt s c i d results count) :
    fooborpDrain s c 0 c.DumpIDs
      = drainOutcome c i (resolveLocationsWithDump d results) (results.length : Int) count := by
  obtain ⟨hi, hbefore, hat, hget, hmr, hne⟩ := hq
  have hsplit : c.DumpIDs = c.DumpIDs.take i ++ c.DumpIDs[i] :: c.DumpIDs.drop (i + 1) := by
    rw [← List.drop_eq_getElem_cons hi, List.take_append_drop]
  have hlen : (c.DumpIDs.take i).length = i := by
    rw [List.length_take]; omega
  have hskip := fooborpDrain_skip s c (c.DumpIDs.take i)
    (c.DumpIDs[i] :: c.DumpIDs.drop (i + 1)) 0 (fun j b hj => by
      have hji : j < i := by
        by_contra hcon
        rw [List.getElem?_take_eq_none (Nat.le_of_not_lt hcon)] at hj
        cases hj
      have hjb : c.DumpIDs[j]? = some b := by
        rw [List.getElem?_take_of_lt hji] at hj
        exact hj
      simpa using hbefore j b hjb hji)
  rw [← hsplit, hlen, Nat.zero_add] at hskip
  rw [hskip]
  have hng : ¬ ((i : Int) < c.SkipDumpsInBatch ∨ c.DumpIDs[i] = c.DumpID) :=
    hat _ (List.getElem?_eq_getElem hi)
  have hl0 : ¬ results.length = 0 := fun h0 => hne (List.length_eq_zero.mp h0)
  simp only [fooborpDrain, hng, if_false, hget, hmr, hl0, Id.bind_eq, Id.pure_eq, bind, pure]
  rfl

/-- With a non-empty batch `fooborp` skips the refill and runs the drain loop. -/
theorem fooborp_nonempty (h : Helpers Id) (s : ReferencePageResolver Id) (c : Cursor)
    (q : Id (Except Error (Int × ReferencePager Id))) (fuel : Nat)
    (hne : c.DumpIDs.length ≠ 0) :
    fooborp h s c q fuel = some (fooborpDrain s c 0 c.DumpIDs) := by
  simp only [fooborp, hne, if_false, Id.bind_eq, Id.pure_eq, bind, pure]

/-- On the batch `[1, 2]` of originating dump 1 the query is made at index 1. -/
theorem sample_drainQueryAt_after_self :
    DrainQueryAt
      (sampleResolver [sampleDump 1, sampleDump 2] []
        [sampleLocation 30, sampleLocation 40, sampleLocation 50] 2)
      (remoteRepoCursor 1 [1, 2]) 1 (sampleDump 1) [sampleLocation 30, sampleLocation 40] 3 := by
  refine ⟨by decide, ?_, ?_, rfl, rfl, by simp⟩
  · intro j b hj hji
    have hj0 : j = 0 := by omega
    subst hj0
    have hb : b = 1 := by
      have : some (1 : Int) = some b := hj
      exact (Option.some.inj this).symm
    exact Or.inr (by rw [hb]; rfl)
  · intro b hb
    have hb2 : b = 2 := by
      have : some (2 : Int) = some b := hb
      exact (Option.some.inj this).symm
    subst hb2
    intro hg
    rcases hg with hg | hg
    · exact absurd hg (by decide)
    · exact absurd hg (by decide)

/-- On the batch `[2]` of originating dump 1 the query is made at index 0. -/
theorem sample_drainQueryAt_single :
    DrainQueryAt
      (sampleResolver [sampleDump 1, sampleDump 2] []
        [sampleLocation 30, sampleLocation 40, sampleLocation 50] 10)
      (remoteRepoCursor 1 [2]) 0 (sampleDump 1)
      [sampleLocation 30, sampleLocation 40, sampleLocation 50] 3 := by
  refine ⟨by decide, ?_, ?_, rfl, rfl, by simp⟩
  · intro j b _ hji
    omega
  · intro b hb
    have hb2 : b = 2 := by
      have : some (2 : Int) = some b := hb
      exact (Option.some.inj this).symm
    subst hb2
    intro hg
    rcases hg with hg | hg
    · exact absurd hg (by decide)
    · exact absurd hg (by decide)

/-- Selecting positions `[lo, hi)` of a list numbered from `n` is a `take` and a `drop`. -/
theorem elementsAt_enumFrom {α : Type} (xs : List α) (lo hi : Int) (n : Nat) :
    ((xs.enumFrom n).filter fun p => decide (lo ≤ (p.1 : Int) ∧ (p.1 : Int) < hi)).map Prod.snd
      = (xs.take (hi - n).toNat).drop (lo - n).toNat := by
  induction xs generalizing n with
  | nil => simp
  | cons a xs ih =>
    have ih1 := ih (n + 1)
    simp only [List.enumFrom_cons, List.filter_cons]
    by_cases hhi : (n : Int) < hi
    · have e1 : (hi - (n : Int)).toNat = (hi - ((n + 1 : Nat) : Int)).toNat + 1 := by omega
      by_cases hlo : lo ≤ (n : Int)
      · have e2 : (lo - (n : Int)).toNat = 0 := by omega
        have e3 : (lo - ((n + 1 : Nat) : Int)).toNat = 0 := by omega
        rw [e3] at ih1
        simpa [hhi, hlo, e1, e2] using ih1
      · have e2 : (lo - (n : Int)).toNat = (lo - ((n + 1 : Nat) : Int)).toNat + 1 := by omega
        simpa [hhi, hlo, e1, e2] using ih1
    · have e1 : (hi - (n : Int)).toNat = 0 := by omega
      have e3 : (hi - ((n + 1 : Nat) : Int)).toNat = 0 := by omega
      rw [e3] at ih1
      simpa [hhi, e1] using ih1

/-- The elements at positions `[lo, hi)` are the clamped slice. -/
theorem elementsAt_eq_slice {α : Type} (xs : List α) (lo hi : Int) :
    elementsAt xs lo hi = (xs.take hi.toNat).drop lo.toNat := by
  have := elementsAt_enumFrom xs lo hi 0
  simpa [elementsAt, List.enum] using this

/-- When every moniker query succeeds, the moniker loop of the same-dump handler appends
the results of the monikers in order. -/
theorem sameDumpMonikerLoop_ok (bundleClient : BundleClient Id) (mr : MonikerData → List Location)
    (monikers : List MonikerData) (locations : List Location)
    (h : ∀ mk ∈ monikers, ∃ count,
      bundleClient.MonikerResults "reference" mk.Scheme mk.Identifier 0 0 = .ok (mr mk, count)) :
    sameDumpMonikerLoop bundleClient monikers locations
      = .ok (locations ++ (monikers.map mr).flatten) := by
  induction monikers generalizing locations with
  | nil => simp [sameDumpMonikerLoop]
  | cons mk rest ih =>
    obtain ⟨count, hc⟩ := h mk (by simp)
    have := ih (locations ++ mr mk) (fun x hx => h x (by simp [hx]))
    simp [sameDumpMonikerLoop, hc, this]

/-- C1 (counterexample): a same-dump cursor at `SkipResults = 2^63 - 1`, limit 1, a dump
with two references. `SkipResults + limit = 2^63` is more than `len(A) = 2`, so the claim
gives a `definition-monikers` cursor at `SkipResults = 0`; Go's sum wraps to `-2^63`,
which is at most 2, and the handler returns a `same-dump` cursor at
`SkipResults = -2^63`. -/
theorem handleSameDumpCursor_overflow_counterexample :
    ¬ ((9223372036854775807 : Int) + 1 ≤ (([sampleLocation 10, sampleLocation 20].length
        : Nat) : Int)) ∧
    (handleSameDumpCursor
        (sampleResolver [sampleDump 1] [sampleLocation 10, sampleLocation 20] [] 1)
        { sameDumpCursor 1 with SkipResults := 9223372036854775807 }).cursor.Phase
      = "same-dump" ∧
    (handleSameDumpCursor
        (sampleResolver [sampleDump 1] [sampleLocation 10, sampleLocation 20] [] 1)
        { sameDumpCursor 1 with SkipResults := 9223372036854775807 }).cursor.SkipResults
      = -9223372036854775808 ∧
    (handleSameDumpCursor
        (sampleResolver [sampleDump 1] [sampleLocation 10, sampleLocation 20] [] 1)
        { sameDumpCursor 1 with SkipResults := 9223372036854775807 }).cursor.Phase
      ≠ "definition-monikers" :=
  ⟨by decide, rfl, rfl, by decide⟩

/-- C1 (amended): for a same-dump cursor whose dump `d` exists and whose bundle calls
succeed, with `A` the references followed by the reference-kind results of each moniker
in order, and provided `SkipResults + limit` stays in the range of Go's 64-bit `int`,
`handleSameDumpCursor` returns the elements of `A` at positions
`[SkipResults, SkipResults + limit)` resolved with `d`, `hasNewCursor = true` and no
error; the next cursor keeps `DumpID`, `Path`, `Line`, `Character` and `Monikers`, and is
`same-dump` at `SkipResults + limit` when that is at most `len(A)`, and
`definition-monikers` at `SkipResults = 0` otherwise. -/
theorem handleSameDumpCursor_page (s : ReferencePageResolver Id) (c : Cursor) (d : Dump)
    (refs : List Location) (mr : MonikerData → List Location)
    (hlo : -9223372036854775808 ≤ c.SkipResults + s.limit)
    (hhi : c.SkipResults + s.limit < 9223372036854775808)
    (hphase : c.Phase = "same-dump")
    (hd : s.db.GetDumpByID c.DumpID = .ok (some d))
    (hr : (s.bundleManagerClient.BundleClient d.ID).References c.Path c.Line c.Character
      = .ok refs)
    (hm : ∀ mk ∈ c.Monikers, ∃ count,
      (s.bundleManagerClient.BundleClient d.ID).MonikerResults "reference" mk.Scheme
        mk.Identifier 0 0 = .ok (mr mk, count)) :
    (handleSameDumpCursor s c).locations
        = (elementsAt (refs ++ (c.Monikers.map mr).flatten) c.SkipResults
            (c.SkipResults + s.limit)).map
          (fun l => { Dump := d, Path := d.Root ++ l.Path, Range := l.Range }) ∧
      (handleSameDumpCursor s c).hasNewCursor = true ∧
      (handleSameDumpCursor s c).err = none ∧
      (handleSameDumpCursor s c).cursor.DumpID = c.DumpID ∧
      (handleSameDumpCursor s c).cursor.Path = c.Path ∧
      (handleSameDumpCursor s c).cursor.Line = c.Line ∧
      (handleSameDumpCursor s c).cursor.Character = c.Character ∧
      (handleSameDumpCursor s c).cursor.Monikers = c.Monikers ∧
      (if c.SkipResults + s.limit ≤ ((refs ++ (c.Monikers.map mr).flatten).length : Int) then
        (handleSameDumpCursor s c).cursor.Phase = "same-dump" ∧
        (handleSameDumpCursor s c).cursor.SkipResults = c.SkipResults + s.limit
      else
        (handleSameDumpCursor s c).cursor.Phase = "definition-monikers" ∧
        (handleSameDumpCursor s c).cursor.SkipResults = 0) := by
  have hloop := sameDumpMonikerLoop_ok (s.bundleManagerClient.BundleClient d.ID) mr
    c.Monikers refs hm
  have hrun : handleSameDumpCursor s c =
      (if c.SkipResults + s.limit ≤ ((refs ++ (c.Monikers.map mr).flatten).length : Int) then
        { locations := resolveLocationsWithDump d
            (sliceLocations (refs ++ (c.Monikers.map mr).flatten) c.SkipResults
              (c.SkipResults + s.limit)),
          cursor := { Cursor.zero with
            Phase := c.Phase, DumpID := c.DumpID, Path := c.Path, Line := c.Line,
            Character := c.Character, Monikers := c.Monikers,
            SkipResults := c.SkipResults + s.limit },
          hasNewCursor := true, err := none }
      else
        { locations := resolveLocationsWithDump d
            (sliceLocations (refs ++ (c.Monikers.map mr).flatten) c.SkipResults
              (c.SkipResults + s.limit)),
          cursor := { Cursor.zero with
            DumpID := c.DumpID, Phase := "definition-monikers", Path := c.Path,
            Line := c.Line, Character := c.Character, Monikers := c.Monikers,
            SkipResults := 0 },
          hasNewCursor := true, err := none } : Result) := by
    have hrange : isInt64 (c.SkipResults + s.limit) = true := by
      simp only [isInt64, Bool.and_eq_true, decide_eq_true_eq]
      exact ⟨hlo, hhi⟩
    simp only [handleSameDumpCursor, hd, hr, hloop, Id.bind_eq, Id.pure_eq, bind, pure,
      sameDump_newOffset _ _ _ hrange]
  rw [hrun]
  split <;> simp [resolveLocationsWithDump, sliceLocations, elementsAt_eq_slice, hphase]

/-- Witness of the amended C1: a dump with two references and one moniker with one more
result, limit 2, `SkipResults = 0`: the handler returns the first two of the three
locations and stays in `same-dump` at `SkipResults = 2`. -/
theorem handleSameDumpCursor_page_witness :
    (handleSameDumpCursor
        (sampleResolver [sampleDump 1] [sampleLocation 10, sampleLocation 20]
          [sampleLocation 30] 2)
        { sameDumpCursor 1 with Monikers := [sampleMoniker] }).locations
      = resolveLocationsWithDump (sampleDump 1) [sampleLocation 10, sampleLocation 20] ∧
    (handleSameDumpCursor
        (sampleResolver [sampleDump 1] [sampleLocation 10, sampleLocation 20]
          [sampleLocation 30] 2)
        { sameDumpCursor 1 with Monikers := [sampleMoniker] }).cursor.Phase = "same-dump" ∧
    (handleSameDumpCursor
        (sampleResolver [sampleDump 1] [sampleLocation 10, sampleLocation 20]
          [sampleLocation 30] 2)
        { sameDumpCursor 1 with Monikers := [sampleMoniker] }).cursor.SkipResults = 2 := by
  have hpage := handleSameDumpCursor_page
    (sampleResolver [sampleDump 1] [sampleLocation 10, sampleLocation 20]
      [sampleLocation 30] 2)
    { sameDumpCursor 1 with Monikers := [sampleMoniker] } (sampleDump 1)
    [sampleLocation 10, sampleLocation 20] (fun _ => [sampleLocation 30])
    (by decide) (by decide) rfl rfl rfl (fun _ _ => ⟨1, rfl⟩)
  have hnext := hpage.2.2.2.2.2.2.2.2
  rw [if_pos (by decide)] at hnext
  exact ⟨hpage.1.trans (by decide), hnext.1, hnext.2⟩

/-- C2 (failing input): limit 1, a same-dump cursor at `SkipResults = 0`, a dump with two
references. Every pass of the loop of `resolvePage` calls the handler on the unchanged
cursor with the unchanged limit, appends one more location and does not break, so the
accumulated page outgrows the limit and the driver returns for no amount of fuel. -/
theorem resolvePage_limit_not_decremented :
    0 < (sampleResolver [sampleDump 1] [sampleLocation 10, sampleLocation 20] [] 1).limit ∧
    (∀ acc : Result, ∃ acc1 : Result,
      resolvePageBody (sampleHelpers [])
          (sampleResolver [sampleDump 1] [sampleLocation 10, sampleLocation 20] [] 1)
          (sameDumpCursor 1) 0 acc = some (acc1, false) ∧
        acc1.locations.length = acc.locations.length + 1) ∧
    (∀ fuel : Nat,
      resolvePage (sampleHelpers [])
        (sampleResolver [sampleDump 1] [sampleLocation 10, sampleLocation 20] [] 1)
        (sameDumpCursor 1) fuel = none) := by
  have hd : ∀ refillFuel : Nat, dispatchCursorHandler (sampleHelpers [])
      (sampleResolver [sampleDump 1] [sampleLocation 10, sampleLocation 20] [] 1)
      (sameDumpCursor 1) refillFuel
      = some { locations := resolveLocationsWithDump (sampleDump 1) [sampleLocation 10],
               cursor := { sameDumpCursor 1 with SkipResults := 1 },
               hasNewCursor := true, err := none } := fun _ => rfl
  refine ⟨by decide, ?_, ?_⟩
  · intro acc
    refine ⟨{ locations := acc.locations ++
                resolveLocationsWithDump (sampleDump 1) [sampleLocation 10],
              cursor := { sameDumpCursor 1 with SkipResults := 1 },
              hasNewCursor := true, err := none }, ?_, ?_⟩
    · simp only [resolvePageBody, hd, Id.bind_eq, Id.pure_eq, bind, pure]
      rfl
    · simp [resolveLocationsWithDump]
  · intro fuel
    exact resolvePageLoop_never_returns _ _ _ fuel _ (by decide) (hd fuel) rfl rfl fuel _

/-- C3 (failing input): a remote-repo cursor of originating dump 1 whose batch holds the
candidate dump 2; both dumps are in the catalog and `GetDumpByID(id)` returns a dump
whose `ID` is `id`. The traversal fetches `cursor.DumpID` instead of the candidate, so
every location it returns carries the originating dump. -/
theorem fooborp_returns_originating_dump :
    (∀ (id : Int) (d : Dump),
      (sampleDB [sampleDump 1, sampleDump 2]).GetDumpByID id = .ok (some d) → d.ID = id) ∧
    handleRemoteRepoCursor (sampleHelpers [])
        (sampleResolver [sampleDump 1, sampleDump 2] [] [sampleLocation 30, sampleLocation 40] 10)
        (remoteRepoCursor 1 [2]) 0
      = some { locations := resolveLocationsWithDump (sampleDump 1)
                 [sampleLocation 30, sampleLocation 40],
               cursor := Cursor.zero, hasNewCursor := false, err := none } ∧
    (∀ loc ∈ resolveLocationsWithDump (sampleDump 1) [sampleLocation 30, sampleLocation 40],
      loc.Dump.ID = (remoteRepoCursor 1 [2]).DumpID) := by
  refine ⟨?_, rfl, by decide⟩
  intro id d hfind
  have h1 : [sampleDump 1, sampleDump 2].find? (fun x => decide (x.ID = id)) = some d :=
    Except.ok.inj hfind
  simpa using List.find?_some h1

/-- C4 (failing input): a remote-repo cursor whose batch holds one candidate with three
results. A single call with limit 10 returns the three locations and no cursor; with
limit 1 the first call of the paged run never returns, because the driver calls the
handler on the unchanged cursor again and again. -/
theorem resolvePage_paging_never_returns :
    resolvePage (sampleHelpers [])
        (sampleResolver [sampleDump 1, sampleDump 2] []
          [sampleLocation 30, sampleLocation 40, sampleLocation 50] 10)
        (remoteRepoCursor 1 [2]) 1
      = some { locations := resolveLocationsWithDump (sampleDump 1)
                 [sampleLocation 30, sampleLocation 40, sampleLocation 50],
               cursor := Cursor.zero, hasNewCursor := false, err := none } ∧
    (∀ fuel : Nat,
      resolvePage (sampleHelpers [])
        (sampleResolver [sampleDump 1, sampleDump 2] []
          [sampleLocation 30, sampleLocation 40, sampleLocation 50] 1)
        (remoteRepoCursor 1 [2]) fuel = none) := by
  refine ⟨rfl, ?_⟩
  intro fuel
  have hd : dispatchCursorHandler (sampleHelpers [])
      (sampleResolver [sampleDump 1, sampleDump 2] []
        [sampleLocation 30, sampleLocation 40, sampleLocation 50] 1)
      (remoteRepoCursor 1 [2]) fuel
      = some { locations := resolveLocationsWithDump (sampleDump 1) [sampleLocation 30],
               cursor := { remoteRepoCursor 1 [2] with SkipResultsInDump := 1 },
               hasNewCursor := true, err := none } := rfl
  exact resolvePageLoop_never_returns _ _ _ fuel _ (by decide) hd rfl rfl fuel _

/-- C6 (failing input, scenario S1 for every dump `D` and every two reference
locations): the first handler call returns the two locations resolved with `D` together
with a `definition-monikers` cursor and `hasNewCursor = true`; the driver then calls the
same handler on the same cursor again, so `resolvePage` with limit 10 never returns. -/
theorem resolvePage_S1_never_returns (D : Dump) (l1 l2 : Location) :
    handleSameDumpCursor (sampleResolver [D] [l1, l2] [] 10) (sameDumpCursor D.ID)
      = { locations :=
            [{ Dump := D, Path := D.Root ++ l1.Path, Range := l1.Range },
             { Dump := D, Path := D.Root ++ l2.Path, Range := l2.Range }],
          cursor := { sameDumpCursor D.ID with Phase := "definition-monikers" },
          hasNewCursor := true, err := none } ∧
    (∀ fuel : Nat,
      resolvePage (sampleHelpers []) (sampleResolver [D] [l1, l2] [] 10)
        (sameDumpCursor D.ID) fuel = none) := by
  have hh : handleSameDumpCursor (sampleResolver [D] [l1, l2] [] 10) (sameDumpCursor D.ID)
      = { locations :=
            [{ Dump := D, Path := D.Root ++ l1.Path, Range := l1.Range },
             { Dump := D, Path := D.Root ++ l2.Path, Range := l2.Range }],
          cursor := { sameDumpCursor D.ID with Phase := "definition-monikers" },
          hasNewCursor := true, err := none } := by
    have hoff : (if 2 < maxSliceLen then addInt64 0 10 else (10 : Int)) = 10 := by
      have h10 := sameDump_newOffset 2 0 10 (by decide)
      simpa using h10
    simp [handleSameDumpCursor, sampleResolver, sampleDB, sampleBundleClient, sameDumpCursor,
      sameDumpMonikerLoop, resolveLocationsWithDump, sliceLocations, Cursor.zero, hoff]
  refine ⟨hh, ?_⟩
  intro fuel
  have hd : dispatchCursorHandler (sampleHelpers []) (sampleResolver [D] [l1, l2] [] 10)
      (sameDumpCursor D.ID) fuel = some (handleSameDumpCursor
        (sampleResolver [D] [l1, l2] [] 10) (sameDumpCursor D.ID)) := rfl
  exact resolvePageLoop_never_returns _ _ _ fuel _ (by simp [sampleResolver]) hd
    (by rw [hh]) (by rw [hh]) fuel _

/-- The four handlers, each on a cursor of its own phase, step monotonically. -/
theorem handlers_phase_monotonic (h : Helpers Id) (s : ReferencePageResolver Id)
    (c : Cursor) :
    (c.Phase = "same-dump" →
      (handleSameDumpCursor s c).hasNewCursor = true →
      PhaseStepMonotonic c (handleSameDumpCursor s c)) ∧
    (c.Phase = "definition-monikers" →
      (handleDefinitionMonikersCursor h s c).hasNewCursor = true →
      PhaseStepMonotonic c (handleDefinitionMonikersCursor h s c)) ∧
    (∀ (fuel : Nat) (r : Result), c.Phase = "same-repo" →
      handleSameRepoCursor h s c fuel = some r → r.hasNewCursor = true →
      PhaseStepMonotonic c r) ∧
    (∀ (fuel : Nat) (r : Result), c.Phase = "remote-repo" →
      handleRemoteRepoCursor h s c fuel = some r → r.hasNewCursor = true →
      PhaseStepMonotonic c r) := by
  unfold PhaseStepMonotonic
  refine ⟨?_, ?_, ?_, ?_⟩
  · intro hp _
    have hcases : (handleSameDumpCursor s c).cursor.Phase = c.Phase ∨
        (handleSameDumpCursor s c).cursor.Phase = "definition-monikers" ∨
        (handleSameDumpCursor s c).hasNewCursor = false := by
      simp only [handleSameDumpCursor, Id.bind_eq, Id.pure_eq, bind, pure]
      split
      · simp [Result.fail]
      · simp [Result.fail]
      · split
        · simp [Result.fail]
        · split
          · simp [Result.fail]
          · split_ifs <;> simp
    rcases hcases with h1 | h1 | h1
    · rw [h1, hp]; decide
    · rw [h1, hp]; decide
    · simp_all
  · intro hp hnext
    have hcases : (handleDefinitionMonikersCursor h s c).cursor.Phase = c.Phase ∨
        (handleDefinitionMonikersCursor h s c).cursor.Phase = "same-repo" := by
      simp only [handleDefinitionMonikersCursor, Id.bind_eq, Id.pure_eq, bind, pure]
        at hnext ⊢
      split
      · rename_i e he
        simp [he, Result.fail] at hnext
      · rename_i b cur he
        simp only [he] at hnext
        rcases definitionMonikersImportLoop_phase h s c b cur c.Monikers with h1 | h1 | h1
        · exact Or.inl h1
        · obtain ⟨hb, hc⟩ := h1
          rw [hnext] at hb
          subst hb
          rw [hc]
          exact Or.inr (definitionMonikersSeedLoop_phase s c c.Monikers cur he)
        · rw [hnext] at h1
          cases h1
    rcases hcases with h1 | h1
    · rw [h1, hp]; decide
    · rw [h1, hp]; decide
  · intro fuel r hp hr hnext
    have hcases : r.cursor.Phase = c.Phase ∨ r.cursor.Phase = "remote-repo" := by
      simp only [handleSameRepoCursor, Id.bind_eq, Id.pure_eq, bind, pure] at hr
      change @Eq (Option Result) _ _ at hr
      split at hr
      · simp at hr
      · rename_i r1 hf
        split at hr
        · simp only [Option.some.injEq] at hr
          subst hr
          exact Or.inl (fooborp_phase h s c _ fuel _ hf hnext)
        · simp only [Option.some.injEq] at hr
          subst hr
          exact Or.inr rfl
    rcases hcases with h1 | h1
    · rw [h1, hp]; decide
    · rw [h1, hp]; decide
  · intro fuel r hp hr hnext
    have h1 : r.cursor.Phase = c.Phase := fooborp_phase h s c _ fuel r hr hnext
    rw [h1, hp]; decide

/-- C5 (counterexample): `handleSameDumpCursor` run on a cursor of phase `remote-repo`
(a dump with two references, limit 10) returns `hasNewCursor = true` without error and a
`definition-monikers` cursor, which comes before `remote-repo`. -/
theorem handleSameDumpCursor_foreign_phase_counterexample :
    (handleSameDumpCursor
        (sampleResolver [sampleDump 1] [sampleLocation 10, sampleLocation 20] [] 10)
        { sameDumpCursor 1 with Phase := "remote-repo" }).hasNewCursor = true ∧
    (handleSameDumpCursor
        (sampleResolver [sampleDump 1] [sampleLocation 10, sampleLocation 20] [] 10)
        { sameDumpCursor 1 with Phase := "remote-repo" }).err = none ∧
    (handleSameDumpCursor
        (sampleResolver [sampleDump 1] [sampleLocation 10, sampleLocation 20] [] 10)
        { sameDumpCursor 1 with Phase := "remote-repo" }).cursor.Phase
      = "definition-monikers" ∧
    ¬ PhaseStepMonotonic { sameDumpCursor 1 with Phase := "remote-repo" }
        (handleSameDumpCursor
          (sampleResolver [sampleDump 1] [sampleLocation 10, sampleLocation 20] [] 10)
          { sameDumpCursor 1 with Phase := "remote-repo" }) := by
  refine ⟨rfl, rfl, rfl, ?_⟩
  intro hmono
  have hrank := hmono.2
  have h1 : phaseRank ({ sameDumpCursor 1 with Phase := "remote-repo" } : Cursor).Phase = 3 := by
    decide
  have h2 : phaseRank (handleSameDumpCursor
      (sampleResolver [sampleDump 1] [sampleLocation 10, sampleLocation 20] [] 10)
      { sameDumpCursor 1 with Phase := "remote-repo" }).cursor.Phase = 1 := by
    decide
  omega

/-- C5 (amended): phase transitions are monotonic for each handler on the cursors of its
own phase, which are the cursors `dispatchCursorHandler` hands to it. Each of the four
handlers, run on a cursor of its phase, when it returns `hasNewCursor = true` without
error, returns a cursor whose phase is one of the four phase names and does not come
before the phase of the input cursor in the order same-dump, definition-monikers,
same-repo, remote-repo; and so does, for every cursor whatsoever, the handler that
`dispatchCursorHandler` selects for it. -/
theorem phase_transitions_monotonic (h : Helpers Id) (s : ReferencePageResolver Id)
    (c : Cursor) :
    (c.Phase = "same-dump" →
      (handleSameDumpCursor s c).hasNewCursor = true →
      (handleSameDumpCursor s c).err = none →
      PhaseStepMonotonic c (handleSameDumpCursor s c)) ∧
    (c.Phase = "definition-monikers" →
      (handleDefinitionMonikersCursor h s c).hasNewCursor = true →
      (handleDefinitionMonikersCursor h s c).err = none →
      PhaseStepMonotonic c (handleDefinitionMonikersCursor h s c)) ∧
    (∀ (fuel : Nat) (r : Result), c.Phase = "same-repo" →
      handleSameRepoCursor h s c fuel = some r → r.hasNewCursor = true → r.err = none →
      PhaseStepMonotonic c r) ∧
    (∀ (fuel : Nat) (r : Result), c.Phase = "remote-repo" →
      handleRemoteRepoCursor h s c fuel = some r → r.hasNewCursor = true → r.err = none →
      PhaseStepMonotonic c r) ∧
    (∀ (fuel : Nat) (r : Result),
      dispatchCursorHandler h s c fuel = some r → r.hasNewCursor = true → r.err = none →
      c.Phase ∈ phaseOrder ∧ PhaseStepMonotonic c r) := by
  obtain ⟨h1, h2, h3, h4⟩ := handlers_phase_monotonic h s c
  refine ⟨fun hp hn _ => h1 hp hn, fun hp hn _ => h2 hp hn,
    fun fuel r hp hr hn _ => h3 fuel r hp hr hn, fun fuel r hp hr hn _ => h4 fuel r hp hr hn,
    ?_⟩
  intro fuel r hr hn _
  change @Eq (Option Result) _ _ at hr
  simp only [dispatchCursorHandler, Id.bind_eq, Id.pure_eq, bind, pure] at hr
  split at hr
  · rename_i hp
    simp only [Option.some.injEq] at hr
    subst hr
    exact ⟨by rw [hp]; decide, h1 hp hn⟩
  · split at hr
    · rename_i hp
      simp only [Option.some.injEq] at hr
      subst hr
      exact ⟨by rw [hp]; decide, h2 hp hn⟩
    · split at hr
      · rename_i hp
        exact ⟨by rw [hp]; decide, h3 fuel r hp hr hn⟩
      · split at hr
        · rename_i hp
          exact ⟨by rw [hp]; decide, h4 fuel r hp hr hn⟩
        · simp only [Option.some.injEq] at hr
          subst hr
          simp [Result.fail] at hn

/-- Witness of the amended C5: the four handlers on sample cursors of their phases, and
the dispatcher on the last of them. -/
theorem phase_transitions_monotonic_witness :
    PhaseStepMonotonic (sameDumpCursor 1)
      (handleSameDumpCursor
        (sampleResolver [sampleDump 1] [sampleLocation 10, sampleLocation 20] [] 10)
        (sameDumpCursor 1)) ∧
    PhaseStepMonotonic
      { sameDumpCursor 1 with Phase := "definition-monikers", Monikers := [sampleMoniker] }
      (handleDefinitionMonikersCursor (sampleHelpers [])
        (sampleResolver [sampleDump 1] [] [] 10)
        { sameDumpCursor 1 with Phase := "definition-monikers",
                                Monikers := [sampleMoniker] }) ∧
    PhaseStepMonotonic { remoteRepoCursor 1 [] with Phase := "same-repo" }
      { locations := [], cursor := remoteRepoCursor 1 [], hasNewCursor := true, err := none } ∧
    PhaseStepMonotonic (remoteRepoCursor 1 [2])
      { locations := resolveLocationsWithDump (sampleDump 1) [sampleLocation 30],
        cursor := { remoteRepoCursor 1 [2] with SkipResultsInDump := 1 },
        hasNewCursor := true, err := none } ∧
    ((remoteRepoCursor 1 [2]).Phase ∈ phaseOrder ∧
      PhaseStepMonotonic (remoteRepoCursor 1 [2])
        { locations := resolveLocationsWithDump (sampleDump 1) [sampleLocation 30],
          cursor := { remoteRepoCursor 1 [2] with SkipResultsInDump := 1 },
          hasNewCursor := true, err := none }) :=
  ⟨(phase_transitions_monotonic (sampleHelpers [])
      (sampleResolver [sampleDump 1] [sampleLocation 10, sampleLocation 20] [] 10)
      (sameDumpCursor 1)).1 rfl rfl rfl,
   (phase_transitions_monotonic (sampleHelpers [])
      (sampleResolver [sampleDump 1] [] [] 10)
      { sameDumpCursor 1 with Phase := "definition-monikers",
                              Monikers := [sampleMoniker] }).2.1 rfl rfl rfl,
   (phase_transitions_monotonic (sampleHelpers [])
      (sampleResolver [sampleDump 1] [] [sampleLocation 30] 10)
      { remoteRepoCursor 1 [] with Phase := "same-repo" }).2.2.1 0
      { locations := [], cursor := remoteRepoCursor 1 [], hasNewCursor := true, err := none }
      rfl rfl rfl rfl,
   (phase_transitions_monotonic (sampleHelpers [])
      (sampleResolver [sampleDump 1] [] [sampleLocation 30, sampleLocation 40] 1)
      (remoteRepoCursor 1 [2])).2.2.2.1 0
      { locations := resolveLocationsWithDump (sampleDump 1) [sampleLocation 30],
        cursor := { remoteRepoCursor 1 [2] with SkipResultsInDump := 1 },
        hasNewCursor := true, err := none }
      rfl rfl rfl rfl,
   (phase_transitions_monotonic (sampleHelpers [])
      (sampleResolver [sampleDump 1] [] [sampleLocation 30, sampleLocation 40] 1)
      (remoteRepoCursor 1 [2])).2.2.2.2 0
      { locations := resolveLocationsWithDump (sampleDump 1) [sampleLocation 30],
        cursor := { remoteRepoCursor 1 [2] with SkipResultsInDump := 1 },
        hasNewCursor := true, err := none }
      rfl rfl rfl⟩

/-- C7: for a definition-monikers cursor whose collaborator calls succeed. The seed
exists exactly when some moniker has a non-empty `PackageInformationID`, and is then the
`same-repo` cursor built from the first such moniker and its package information. If the
first import moniker whose lookup is non-empty returns `(locs, count)`, the handler
emits `locs`, and the next cursor is `definition-monikers` at
`SkipResults + len(locs)` (same `DumpID`, `Path`, `Monikers`) when that is below
`count`, and the seed otherwise; if no import moniker yields results, the handler emits
nothing and returns the seed. In the last two cases `hasNewCursor` says whether the seed
exists. -/
theorem handleDefinitionMonikersCursor_spec (h : Helpers Id) (s : ReferencePageResolver Id)
    (c : Cursor) (pkg : PackageInformationData)
    (hphase : c.Phase = "definition-monikers")
    (hpkg : ∀ mk,
      c.Monikers.find? (fun mk => decide (mk.PackageInformationID ≠ "")) = some mk →
      (s.bundleManagerClient.BundleClient c.DumpID).PackageInformation c.Path
        mk.PackageInformationID = .ok pkg) :
    (definitionMonikersSeedLoop s c c.Monikers
        = .ok ((seedOf c pkg).isSome, (seedOf c pkg).getD Cursor.zero)) ∧
    ((seedOf c pkg).isSome = true ↔ ∃ mk ∈ c.Monikers, mk.PackageInformationID ≠ "") ∧
    (∀ mk, c.Monikers.find? (fun mk => decide (mk.PackageInformationID ≠ "")) = some mk →
      seedOf c pkg = some (seedCursor c mk pkg)) ∧
    (∀ (pre post : List MonikerData) (mk : MonikerData) (locs : List ResolvedLocation)
        (count : Int),
      c.Monikers = pre ++ mk :: post →
      (∀ x ∈ pre, x.Kind = "import" → ∃ n,
        h.lookupMoniker s.db s.bundleManagerClient c.DumpID c.Path "reference" x s.limit
          c.SkipResults = .ok ([], n)) →
      mk.Kind = "import" →
      h.lookupMoniker s.db s.bundleManagerClient c.DumpID c.Path "reference" mk s.limit
        c.SkipResults = .ok (locs, count) →
      locs ≠ [] →
      handleDefinitionMonikersCursor h s c =
        if c.SkipResults + (locs.length : Int) < count then
          { locations := locs,
            cursor := { Cursor.zero with
              Phase := "definition-monikers", DumpID := c.DumpID, Path := c.Path,
              Monikers := c.Monikers, SkipResults := c.SkipResults + (locs.length : Int) },
            hasNewCursor := true, err := none }
        else
          { locations := locs, cursor := (seedOf c pkg).getD Cursor.zero,
            hasNewCursor := (seedOf c pkg).isSome, err := none }) ∧
    ((∀ x ∈ c.Monikers, x.Kind = "import" → ∃ n,
        h.lookupMoniker s.db s.bundleManagerClient c.DumpID c.Path "reference" x s.limit
          c.SkipResults = .ok ([], n)) →
      handleDefinitionMonikersCursor h s c =
        { locations := [], cursor := (seedOf c pkg).getD Cursor.zero,
          hasNewCursor := (seedOf c pkg).isSome, err := none }) := by
  have hseed : definitionMonikersSeedLoop s c c.Monikers
      = .ok ((seedOf c pkg).isSome, (seedOf c pkg).getD Cursor.zero) :=
    definitionMonikersSeedLoop_eq s c pkg c.Monikers hpkg
  have hrun : handleDefinitionMonikersCursor h s c
      = definitionMonikersImportLoop h s c (seedOf c pkg).isSome
          ((seedOf c pkg).getD Cursor.zero) c.Monikers := by
    simp only [handleDefinitionMonikersCursor, Id.bind_eq, Id.pure_eq, bind, pure]
    rw [hseed]
  refine ⟨hseed, ?_, ?_, ?_, ?_⟩
  · simp [seedOf]
  · intro mk hmk
    rw [seedOf, hmk]
    rfl
  · intro pre post mk locs count hsplit hpre hkind hcall hne
    have hlen : ¬ locs.length = 0 := by
      intro h0
      exact hne (List.length_eq_zero.mp h0)
    have key : ∀ (b : Bool) (cur : Cursor),
        definitionMonikersImportLoop h s c b cur c.Monikers
          = definitionMonikersImportLoop h s c b cur (mk :: post) := by
      intro b cur
      rw [hsplit]
      exact definitionMonikersImportLoop_skip h s c b cur pre (mk :: post) hpre
    rw [hrun, key]
    simp only [definitionMonikersImportLoop, hkind, hcall, Id.bind_eq, Id.pure_eq, bind,
      pure, hlen, hphase, ne_eq, not_true_eq_false, if_false]
  · intro hall
    have hskip := definitionMonikersImportLoop_skip h s c (seedOf c pkg).isSome
      ((seedOf c pkg).getD Cursor.zero) c.Monikers [] hall
    rw [List.append_nil] at hskip
    rw [hrun, hskip]
    rfl

/-- Witness of C7 (scenario S3): one import moniker with package information, whose
lookup returns 2 locations of total 2, limit 10: the handler emits them and hands over
to the `same-repo` seed. -/
theorem handleDefinitionMonikersCursor_spec_witness :
    handleDefinitionMonikersCursor
        (sampleHelpers (resolveLocationsWithDump (sampleDump 2)
          [sampleLocation 30, sampleLocation 40]))
        (sampleResolver [sampleDump 1, sampleDump 2] [] [] 10)
        { sameDumpCursor 1 with Phase := "definition-monikers", Monikers := [sampleMoniker] }
      = { locations := resolveLocationsWithDump (sampleDump 2)
            [sampleLocation 30, sampleLocation 40],
          cursor := seedCursor (sameDumpCursor 1) sampleMoniker
            { Name := "pkg", Version := "1.0.0" },
          hasNewCursor := true, err := none } :=
  ((handleDefinitionMonikersCursor_spec
      (sampleHelpers (resolveLocationsWithDump (sampleDump 2)
        [sampleLocation 30, sampleLocation 40]))
      (sampleResolver [sampleDump 1, sampleDump 2] [] [] 10)
      { sameDumpCursor 1 with Phase := "definition-monikers", Monikers := [sampleMoniker] }
      { Name := "pkg", Version := "1.0.0" } rfl (fun _ _ => rfl)).2.2.2.1
    [] [] sampleMoniker
    (resolveLocationsWithDump (sampleDump 2) [sampleLocation 30, sampleLocation 40]) 2
    rfl (fun _ hx => absurd hx (List.not_mem_nil _)) rfl rfl (by simp [resolveLocationsWithDump])).trans rfl

/-- C8 (counterexample): the batch is `[1, 2]`, the originating dump is 1 and
`SkipDumpsInBatch = 0`. Index 0 names the originating dump and is passed over; the
bundle query is made at index 1 and returns 2 of 3 results. The next cursor has
`hasNewCursor = true` and `SkipResultsInDump = 2`, but its `SkipDumpsInBatch` is still 0,
not 1. -/
theorem fooborp_more_results_index_counterexample :
    DrainQueryAt
      (sampleResolver [sampleDump 1, sampleDump 2] []
        [sampleLocation 30, sampleLocation 40, sampleLocation 50] 2)
      (remoteRepoCursor 1 [1, 2]) 1 (sampleDump 1) [sampleLocation 30, sampleLocation 40] 3 ∧
    (remoteRepoCursor 1 [1, 2]).SkipResultsInDump +
      (([sampleLocation 30, sampleLocation 40].length : Nat) : Int) < 3 ∧
    handleRemoteRepoCursor (sampleHelpers [])
        (sampleResolver [sampleDump 1, sampleDump 2] []
          [sampleLocation 30, sampleLocation 40, sampleLocation 50] 2)
        (remoteRepoCursor 1 [1, 2]) 0
      = some { locations := resolveLocationsWithDump (sampleDump 1)
                 [sampleLocation 30, sampleLocation 40],
               cursor := { remoteRepoCursor 1 [1, 2] with SkipResultsInDump := 2 },
               hasNewCursor := true, err := none } ∧
    ({ remoteRepoCursor 1 [1, 2] with SkipResultsInDump := 2 } : Cursor).SkipDumpsInBatch
      ≠ 1 :=
  ⟨sample_drainQueryAt_after_self, by decide, rfl, by decide⟩

/-- C8 (amended): when the bundle query at index `i` returns a non-empty result set with
`SkipResultsInDump + len(results) < count`, the traversal emits the resolved results
with `hasNewCursor = true` and the next cursor is the current cursor with only
`SkipResultsInDump` advanced to `SkipResultsInDump + len(results)`. `SkipDumpsInBatch`
is left as it was: it is at most `i`, and the indices before `i` are passed over by the
guard again on resume, so that the traversal stays on index `i`. -/
theorem fooborp_more_results_same_dump (h : Helpers Id) (s : ReferencePageResolver Id)
    (c : Cursor) (i : Nat) (d : Dump) (results : List Location) (count : Int)
    (q : Id (Except Error (Int × ReferencePager Id))) (fuel : Nat)
    (hq : DrainQueryAt s c i d results count)
    (hmore : c.SkipResultsInDump + (results.length : Int) < count) :
    fooborpDrain s c 0 c.DumpIDs
      = { locations := resolveLocationsWithDump d results,
          cursor := { c with SkipResultsInDump := c.SkipResultsInDump + (results.length : Int) },
          hasNewCursor := true, err := none } ∧
    fooborp h s c q fuel
      = some { locations := resolveLocationsWithDump d results,
               cursor := { c with
                 SkipResultsInDump := c.SkipResultsInDump + (results.length : Int) },
               hasNewCursor := true, err := none } ∧
    c.SkipDumpsInBatch ≤ (i : Int) ∧
    (∀ (j : Nat) (b : Int), c.DumpIDs[j]? = some b → j < i →
      drainGuard { c with SkipResultsInDump := c.SkipResultsInDump + (results.length : Int) }
        j b) ∧
    (∀ b : Int, c.DumpIDs[i]? = some b →
      ¬ drainGuard
        { c with SkipResultsInDump := c.SkipResultsInDump + (results.length : Int) } i b) := by
  have hdrain := fooborpDrain_at s c i d results count hq
  simp only [drainOutcome, hmore, if_true] at hdrain
  have hne : c.DumpIDs.length ≠ 0 := by
    have := hq.1
    omega
  refine ⟨hdrain, ?_, ?_, ?_, ?_⟩
  · rw [fooborp_nonempty h s c q fuel hne, hdrain]
  · have hng := hq.2.2.1 _ (List.getElem?_eq_getElem hq.1)
    unfold drainGuard at hng
    omega
  · exact hq.2.1
  · exact hq.2.2.1

/-- Witness of the amended C8, on the input of the counterexample. -/
theorem fooborp_more_results_same_dump_witness :
    fooborpDrain
        (sampleResolver [sampleDump 1, sampleDump 2] []
          [sampleLocation 30, sampleLocation 40, sampleLocation 50] 2)
        (remoteRepoCursor 1 [1, 2]) 0 (remoteRepoCursor 1 [1, 2]).DumpIDs
      = { locations := resolveLocationsWithDump (sampleDump 1)
            [sampleLocation 30, sampleLocation 40],
          cursor := { remoteRepoCursor 1 [1, 2] with SkipResultsInDump := 2 },
          hasNewCursor := true, err := none } :=
  (fooborp_more_results_same_dump (sampleHelpers [])
    (sampleResolver [sampleDump 1, sampleDump 2] []
      [sampleLocation 30, sampleLocation 40, sampleLocation 50] 2)
    (remoteRepoCursor 1 [1, 2]) 1 (sampleDump 1) [sampleLocation 30, sampleLocation 40] 3
    (.ok (0, samplePager)) 0 sample_drainQueryAt_after_self (by decide)).1

/-- C9: when the bundle query at index `i` returns a non-empty result set with
`SkipResultsInDump + len(results) >= count`, the resolved results are emitted and: if
`i + 1 < len(DumpIDs)` the next cursor is the current cursor except
`SkipDumpsInBatch = i + 1` and `SkipResultsInDump = 0`; else if
`SkipDumpsWhenBatching < TotalDumpsWhenBatching` the next cursor is the current cursor
except that `DumpIDs` is empty and `SkipDumpsInBatch = SkipResultsInDump = 0`; otherwise
`hasNewCursor = false`. -/
theorem fooborp_dump_exhausted (h : Helpers Id) (s : ReferencePageResolver Id)
    (c : Cursor) (i : Nat) (d : Dump) (results : List Location) (count : Int)
    (q : Id (Except Error (Int × ReferencePager Id))) (fuel : Nat)
    (hq : DrainQueryAt s c i d results count)
    (hdone : ¬ c.SkipResultsInDump + (results.length : Int) < count) :
    fooborp h s c q fuel = some (fooborpDrain s c 0 c.DumpIDs) ∧
    fooborpDrain s c 0 c.DumpIDs =
      if (i : Int) + 1 < (c.DumpIDs.length : Int) then
        { locations := resolveLocationsWithDump d results,
          cursor := { c with SkipDumpsInBatch := (i : Int) + 1, SkipResultsInDump := 0 },
          hasNewCursor := true, err := none }
      else if c.SkipDumpsWhenBatching < c.TotalDumpsWhenBatching then
        { locations := resolveLocationsWithDump d results,
          cursor := { c with DumpIDs := [], SkipDumpsInBatch := 0, SkipResultsInDump := 0 },
          hasNewCursor := true, err := none }
      else
        { locations := resolveLocationsWithDump d results, cursor := Cursor.zero,
          hasNewCursor := false, err := none } := by
  have hdrain := fooborpDrain_at s c i d results count hq
  simp only [drainOutcome, hdone, if_false] at hdrain
  have hne : c.DumpIDs.length ≠ 0 := by
    have := hq.1
    omega
  exact ⟨fooborp_nonempty h s c q fuel hne, hdrain⟩

/-- Witness of C9: one candidate whose three results are all returned; no further dump,
no further batch, so the traversal ends. -/
theorem fooborp_dump_exhausted_witness :
    fooborpDrain
        (sampleResolver [sampleDump 1, sampleDump 2] []
          [sampleLocation 30, sampleLocation 40, sampleLocation 50] 10)
        (remoteRepoCursor 1 [2]) 0 (remoteRepoCursor 1 [2]).DumpIDs
      = { locations := resolveLocationsWithDump (sampleDump 1)
            [sampleLocation 30, sampleLocation 40, sampleLocation 50],
          cursor := Cursor.zero, hasNewCursor := false, err := none } :=
  ((fooborp_dump_exhausted (sampleHelpers [])
    (sampleResolver [sampleDump 1, sampleDump 2] []
      [sampleLocation 30, sampleLocation 40, sampleLocation 50] 10)
    (remoteRepoCursor 1 [2]) 0 (sampleDump 1)
    [sampleLocation 30, sampleLocation 40, sampleLocation 50] 3
    (.ok (0, samplePager)) 0 sample_drainQueryAt_single (by decide)).2).trans rfl

/-- C10: when the candidate-dump traversal of a same-repo cursor returns no error and no
next cursor, `handleSameRepoCursor` returns the traversal's locations with
`hasNewCursor = true` and the `remote-repo` cursor that keeps `DumpID`, `Scheme`,
`Identifier`, `Name` and `Version` and has no batch and zero batching counters; when the
traversal returns a next cursor or an error, the handler returns the traversal's result
unchanged (and the handler returns whenever the traversal does). -/
theorem handleSameRepoCursor_handoff (h : Helpers Id) (s : ReferencePageResolver Id)
    (c : Cursor) (fuel : Nat) :
    (∀ r : Result,
      fooborp h s c (s.db.SameRepoPager s.repositoryID s.commit c.Scheme c.Name c.Version
        s.remoteDumpLimit) fuel = some r →
      r.err = none → r.hasNewCursor = false →
      handleSameRepoCursor h s c fuel
        = some { locations := r.locations,
                 cursor := { Cursor.zero with
                   Phase := "remote-repo", DumpID := c.DumpID, Scheme := c.Scheme,
                   Identifier := c.Identifier, Name := c.Name, Version := c.Version,
                   DumpIDs := [], TotalDumpsWhenBatching := 0, SkipDumpsWhenBatching := 0,
                   SkipDumpsInBatch := 0, SkipResultsInDump := 0 },
                 hasNewCursor := true, err := none }) ∧
    (∀ r : Result,
      fooborp h s c (s.db.SameRepoPager s.repositoryID s.commit c.Scheme c.Name c.Version
        s.remoteDumpLimit) fuel = some r →
      (r.err ≠ none ∨ r.hasNewCursor = true) →
      handleSameRepoCursor h s c fuel = some r) := by
  refine ⟨?_, ?_⟩
  · intro r hr herr hnext
    simp only [handleSameRepoCursor, Id.bind_eq, Id.pure_eq, bind, pure]
    rw [hr]
    simp [herr, hnext]
  · intro r hr hor
    simp only [handleSameRepoCursor, Id.bind_eq, Id.pure_eq, bind, pure]
    rw [hr]
    simp only [hor, if_true]

/-- Witness of C10: a same-repo cursor whose pager has no rows: the traversal returns
nothing and the handler hands over to `remote-repo`. -/
theorem handleSameRepoCursor_handoff_witness :
    handleSameRepoCursor (sampleHelpers [])
        (sampleResolver [sampleDump 1] [] [sampleLocation 30] 10)
        { remoteRepoCursor 1 [] with Phase := "same-repo" } 0
      = some { locations := [], cursor := remoteRepoCursor 1 [], hasNewCursor := true,
               err := none } :=
  ((handleSameRepoCursor_handoff (sampleHelpers [])
    (sampleResolver [sampleDump 1] [] [sampleLocation 30] 10)
    { remoteRepoCursor 1 [] with Phase := "same-repo" } 0).1
    { locations := [], cursor := Cursor.zero, hasNewCursor := false, err := none }
    rfl rfl rfl).trans rfl

/-! ### Traced runs -/

/-- Running `pure` leaves the log as it is. -/
theorem Traced.run_pure {α : Type} (a : α) (log : List Event) :
    (pure a : Traced α).run log = (a, log) := rfl

/-- Running a bind runs the second computation from the log of the first. -/
theorem Traced.run_bind {α β : Type} (x : Traced α) (f : α → Traced β) (log : List Event) :
    (x >>= f).run log = (f (x.run log).1).run (x.run log).2 := rfl

/-- Running a recorded call appends its event. -/
theorem Traced.run_call {α : Type} (ev : Event) (v : α) (log : List Event) :
    (Traced.call ev v).run log = (v, log ++ [ev]) := rfl

/-- The traced refill loop leaves at once when its condition fails. -/
theorem refill_run_stop (h : Helpers Traced) (pager : ReferencePager Id) (identifier : String)
    (limit totalCount : Int) (fuel : Nat) (refs : List Reference) (newOffset : Int)
    (log : List Event) (hcond : ¬ ((refs.length : Int) < limit ∧ newOffset < totalCount)) :
    (fooborpRefillLoop h (tracePager pager) identifier limit totalCount fuel refs
        newOffset).run log = (some (.inr (refs, newOffset)), log) := by
  cases fuel <;> simp only [fooborpRefillLoop, hcond, if_false] <;> rfl

/-- The traced refill loop runs out of fuel when its condition holds and no fuel is left. -/
theorem refill_run_zero (h : Helpers Traced) (pager : ReferencePager Id) (identifier : String)
    (limit totalCount : Int) (refs : List Reference) (newOffset : Int)
    (log : List Event) (hcond : (refs.length : Int) < limit ∧ newOffset < totalCount) :
    (fooborpRefillLoop h (tracePager pager) identifier limit totalCount 0 refs
        newOffset).run log = (none, log) := by
  simp only [fooborpRefillLoop, hcond, and_self, if_true]
  rfl

/-- The traced refill loop on a failing page: one `PageFromOffset`, then `CloseTx` with
the page error, whose value is returned. -/
theorem refill_run_error (h : Helpers Traced) (pager : ReferencePager Id) (identifier : String)
    (limit totalCount : Int) (fuel : Nat) (refs : List Reference) (newOffset : Int)
    (log : List Event) (err : Error)
    (hcond : (refs.length : Int) < limit ∧ newOffset < totalCount)
    (hpage : pager.PageFromOffset newOffset = .error err) :
    (fooborpRefillLoop h (tracePager pager) identifier limit totalCount (fuel + 1) refs
        newOffset).run log
      = (some (.inl { locations := [], cursor := Cursor.zero, hasNewCursor := false,
                      err := pager.CloseTx (some err) }),
         log ++ [Event.pageFromOffset newOffset, Event.closeTx (some err)]) := by
  simp only [fooborpRefillLoop, hcond, and_self, if_true, tracePager, Traced.run_bind,
    Traced.run_call, hpage, Traced.run_pure, List.append_assoc, List.singleton_append]

/-- The traced refill loop on an empty page: one `PageFromOffset`, then the loop ends. -/
theorem refill_run_empty (h : Helpers Traced) (pager : ReferencePager Id) (identifier : String)
    (limit totalCount : Int) (fuel : Nat) (refs : List Reference) (newOffset : Int)
    (log : List Event)
    (hcond : (refs.length : Int) < limit ∧ newOffset < totalCount)
    (hpage : pager.PageFromOffset newOffset = .ok []) :
    (fooborpRefillLoop h (tracePager pager) identifier limit totalCount (fuel + 1) refs
        newOffset).run log
      = (some (.inr (refs, newOffset)), log ++ [Event.pageFromOffset newOffset]) := by
  simp only [fooborpRefillLoop, hcond, and_self, if_true, tracePager, Traced.run_bind,
    Traced.run_call, hpage, List.length_nil, Traced.run_pure]

/-- The traced refill loop on a non-empty page: one `PageFromOffset`, then the loop goes
on with the accepted rows appended and the offset advanced by the scanned count. -/
theorem refill_run_more (h : Helpers Traced) (pager : ReferencePager Id) (identifier : String)
    (limit totalCount : Int) (fuel : Nat) (refs : List Reference) (newOffset : Int)
    (log : List Event) (page : List Reference)
    (hcond : (refs.length : Int) < limit ∧ newOffset < totalCount)
    (hpage : pager.PageFromOffset newOffset = .ok page) (hne : page ≠ []) :
    (fooborpRefillLoop h (tracePager pager) identifier limit totalCount (fuel + 1) refs
        newOffset).run log
      = (fooborpRefillLoop h (tracePager pager) identifier limit totalCount fuel
          (refs ++ (h.applyBloomFilter page identifier (limit - (refs.length : Int))).1)
          (newOffset + (h.applyBloomFilter page identifier (limit - (refs.length : Int))).2)).run
          (log ++ [Event.pageFromOffset newOffset]) := by
  have hl : ¬ page.length = 0 := fun h0 => hne (List.length_eq_zero.mp h0)
  simp only [fooborpRefillLoop, hcond, and_self, if_true, tracePager, Traced.run_bind,
    Traced.run_call, hpage, hl, if_false]

/-- C11: for a cursor whose phase is none of the four names (the empty phase of the zero
cursor included), `dispatchCursorHandler` returns the unknown-phase error with no
locations, the zero cursor and `hasNewCursor = false`, as a pure value in every monad,
so that no collaborator is called (with recording collaborators the log is unchanged);
for each of the four names it is exactly the handler of that phase. -/
theorem dispatchCursorHandler_spec {m : Type → Type} [Monad m] (h : Helpers m)
    (s : ReferencePageResolver m) (c : Cursor) (fuel : Nat) :
    (c.Phase ≠ "same-dump" → c.Phase ≠ "definition-monikers" → c.Phase ≠ "same-repo" →
      c.Phase ≠ "remote-repo" →
      dispatchCursorHandler h s c fuel
        = pure (some { locations := [], cursor := Cursor.zero, hasNewCursor := false,
                       err := some (Error.unknownCursorPhase c.Phase) })) ∧
    (c.Phase ≠ "same-dump" → c.Phase ≠ "definition-monikers" → c.Phase ≠ "same-repo" →
      c.Phase ≠ "remote-repo" →
      ∀ (hp : Helpers Id) (sp : ReferencePageResolver Id) (log : List Event),
        (dispatchCursorHandler (traceHelpers hp sp) (traceResolver sp) c fuel).run log
          = (some { locations := [], cursor := Cursor.zero, hasNewCursor := false,
                    err := some (Error.unknownCursorPhase c.Phase) }, log)) ∧
    (c.Phase = "same-dump" →
      dispatchCursorHandler h s c fuel
        = (handleSameDumpCursor s c >>= fun r => pure (some r))) ∧
    (c.Phase = "definition-monikers" →
      dispatchCursorHandler h s c fuel
        = (handleDefinitionMonikersCursor h s c >>= fun r => pure (some r))) ∧
    (c.Phase = "same-repo" →
      dispatchCursorHandler h s c fuel = handleSameRepoCursor h s c fuel) ∧
    (c.Phase = "remote-repo" →
      dispatchCursorHandler h s c fuel = handleRemoteRepoCursor h s c fuel) := by
  refine ⟨?_, ?_, ?_, ?_, ?_, ?_⟩
  · intro h1 h2 h3 h4
    simp only [dispatchCursorHandler, h1, h2, h3, h4, if_false]
    rfl
  · intro h1 h2 h3 h4 hp sp log
    simp only [dispatchCursorHandler, h1, h2, h3, h4, if_false]
    rfl
  · intro hp
    simp [dispatchCursorHandler, hp]
  · intro hp
    simp [dispatchCursorHandler, hp]
  · intro hp
    simp [dispatchCursorHandler, hp]
  · intro hp
    simp [dispatchCursorHandler, hp]

/-- Witness of C11: the zero cursor, whose phase is empty. -/
theorem dispatchCursorHandler_spec_witness :
    dispatchCursorHandler (sampleHelpers [])
        (sampleResolver [sampleDump 1] [sampleLocation 10] [] 10) Cursor.zero 0
      = some { locations := [], cursor := Cursor.zero, hasNewCursor := false,
               err := some (Error.unknownCursorPhase "") } :=
  (dispatchCursorHandler_spec (sampleHelpers [])
    (sampleResolver [sampleDump 1] [sampleLocation 10] [] 10) Cursor.zero 0).1
    (by decide) (by decide) (by decide) (by decide)

/-- C12: when `GetDumpByID(c.DumpID)` reports that the dump does not exist,
`handleSameDumpCursor` returns `ErrMissingDump` with no locations, the zero cursor and
`hasNewCursor = false`, and the only collaborator call it makes is that `GetDumpByID`
(no bundle call); when `GetDumpByID` returns an error, that error is returned in the same
way. -/
theorem handleSameDumpCursor_missing_dump (s : ReferencePageResolver Id) (c : Cursor) :
    (s.db.GetDumpByID c.DumpID = .ok none →
      handleSameDumpCursor s c
        = { locations := [], cursor := Cursor.zero, hasNewCursor := false,
            err := some Error.ErrMissingDump } ∧
      ∀ log : List Event,
        (handleSameDumpCursor (traceResolver s) c).run log
          = ({ locations := [], cursor := Cursor.zero, hasNewCursor := false,
               err := some Error.ErrMissingDump },
             log ++ [Event.getDumpByID c.DumpID])) ∧
    (∀ err : Error, s.db.GetDumpByID c.DumpID = .error err →
      handleSameDumpCursor s c
        = { locations := [], cursor := Cursor.zero, hasNewCursor := false,
            err := some err } ∧
      ∀ log : List Event,
        (handleSameDumpCursor (traceResolver s) c).run log
          = ({ locations := [], cursor := Cursor.zero, hasNewCursor := false,
               err := some err },
             log ++ [Event.getDumpByID c.DumpID])) := by
  refine ⟨?_, ?_⟩
  · intro hd
    refine ⟨?_, ?_⟩
    · simp only [handleSameDumpCursor, hd, Id.bind_eq, Id.pure_eq, bind, pure]
      rfl
    · intro log
      simp only [handleSameDumpCursor, traceResolver, traceDB, Traced.run_bind,
        Traced.run_call, hd]
      rfl
  · intro err hd
    refine ⟨?_, ?_⟩
    · simp only [handleSameDumpCursor, hd, Id.bind_eq, Id.pure_eq, bind, pure]
      rfl
    · intro log
      simp only [handleSameDumpCursor, traceResolver, traceDB, Traced.run_bind,
        Traced.run_call, hd]
      rfl

/-- Witness of C12: a same-dump cursor for dump 7, which the catalog does not hold. -/
theorem handleSameDumpCursor_missing_dump_witness :
    (handleSameDumpCursor
        (traceResolver (sampleResolver [sampleDump 1] [sampleLocation 10] [] 10))
        (sameDumpCursor 7)).run []
      = ({ locations := [], cursor := Cursor.zero, hasNewCursor := false,
           err := some Error.ErrMissingDump }, [Event.getDumpByID 7]) :=
  ((handleSameDumpCursor_missing_dump
    (sampleResolver [sampleDump 1] [sampleLocation 10] [] 10) (sameDumpCursor 7)).1 rfl).2 []

/-- C16: `GetPackage` returns `(dump, true, nil)` when the row scans into `dump`,
`(Dump{}, false, nil)` when the query yields no row, and `(Dump{}, false, err)` for any
other scan error `err`. -/
theorem GetPackage_spec (scanDumpQueryRow : String → String → String → Id (Except Error Dump))
    (scheme name version : String) :
    (∀ dump : Dump, scanDumpQueryRow scheme name version = .ok dump →
      GetPackage scanDumpQueryRow scheme name version = (dump, true, none)) ∧
    (scanDumpQueryRow scheme name version = .error sqlErrNoRows →
      GetPackage scanDumpQueryRow scheme name version = (Dump.zero, false, none)) ∧
    (∀ err : Error, err ≠ sqlErrNoRows →
      scanDumpQueryRow scheme name version = .error err →
      GetPackage scanDumpQueryRow scheme name version = (Dump.zero, false, some err)) := by
  refine ⟨?_, ?_, ?_⟩
  · intro dump hscan
    simp only [GetPackage, hscan, Id.bind_eq, Id.pure_eq, bind, pure]
  · intro hscan
    simp only [GetPackage, hscan, Id.bind_eq, Id.pure_eq, bind, pure]
    rfl
  · intro err hne hscan
    simp only [GetPackage, hscan, Id.bind_eq, Id.pure_eq, bind, pure, ignoreErrNoRows, hne,
      if_false]

/-- Witness of C16: a query that yields no row. -/
theorem GetPackage_spec_witness :
    GetPackage (m := Id) (fun _ _ _ => .error sqlErrNoRows) "gomod" "pkg" "1.0.0"
      = (Dump.zero, false, none) :=
  (GetPackage_spec (fun _ _ _ => .error sqlErrNoRows) "gomod" "pkg" "1.0.0").2.1 rfl

/-- C20: the resolver built by `Server.references` has `remoteDumpLimit = 0`. For a
cursor with empty `DumpIDs` whose pager opens and closes without error, the refill loop
leaves at once without a `PageFromOffset` call and with no accepted row, and the
traversal returns no location: the same-repo handler hands over to `remote-repo` with no
locations and the remote-repo handler returns `hasNewCursor = false` with no locations;
the only calls recorded are the opening of the pager and `CloseTx(nil)`. -/
theorem references_remoteDumpLimit_zero (h : Helpers Id) (db : DB Id)
    (bmc : BundleManagerClient Id) (repositoryID : Int) (commit : String) (limit : Int)
    (s : ReferencePageResolver Id)
    (hs : s = referencesResolver db bmc repositoryID commit limit)
    (c : Cursor) (fuel : Nat) (totalCount : Int) (pager : ReferencePager Id)
    (hempty : c.DumpIDs = []) (hclose : pager.CloseTx none = none) :
    s.remoteDumpLimit = 0 ∧
    (∀ (cursor : Cursor) (n : Nat),
      references h db bmc repositoryID commit limit cursor n = resolvePage h s cursor n) ∧
    (∀ (n : Nat) (offset : Int),
      fooborpRefillLoop h pager c.Identifier s.remoteDumpLimit totalCount n [] offset
        = some (.inr ([], offset))) ∧
    (s.db.SameRepoPager s.repositoryID s.commit c.Scheme c.Name c.Version s.remoteDumpLimit
        = .ok (totalCount, pager) →
      handleSameRepoCursor h s c fuel
        = some { locations := [],
                 cursor := { Cursor.zero with
                   Phase := "remote-repo", DumpID := c.DumpID, Scheme := c.Scheme,
                   Identifier := c.Identifier, Name := c.Name, Version := c.Version },
                 hasNewCursor := true, err := none } ∧
      ∀ log : List Event,
        ((handleSameRepoCursor (traceHelpers h s) (traceResolver s) c fuel).run log).2
          = log ++ [Event.sameRepoPager s.repositoryID s.commit c.Scheme c.Name c.Version 0,
                    Event.closeTx none]) ∧
    (s.db.PackageReferencePager c.Scheme c.Name c.Version s.repositoryID s.remoteDumpLimit
        = .ok (totalCount, pager) →
      handleRemoteRepoCursor h s c fuel
        = some { locations := [], cursor := Cursor.zero, hasNewCursor := false,
                 err := none } ∧
      ∀ log : List Event,
        ((handleRemoteRepoCursor (traceHelpers h s) (traceResolver s) c fuel).run log).2
          = log ++ [Event.packageReferencePager c.Scheme c.Name c.Version s.repositoryID 0,
                    Event.closeTx none]) := by
  have hlim : s.remoteDumpLimit = 0 := by rw [hs]; rfl
  have hloop : ∀ (n : Nat) (offset : Int),
      fooborpRefillLoop h pager c.Identifier s.remoteDumpLimit totalCount n [] offset
        = some (.inr ([], offset)) := by
    intro n offset
    rw [hlim]
    cases n <;> simp [fooborpRefillLoop]
  have hcond : ∀ offset : Int,
      ¬ ((([] : List Reference).length : Int) < s.remoteDumpLimit ∧ offset < totalCount) := by
    intro offset
    rw [hlim]
    simp
  have hlen : c.DumpIDs.length = 0 := by rw [hempty]; rfl
  refine ⟨hlim, ?_, hloop, ?_, ?_⟩
  · intro cursor n
    rw [hs]
    rfl
  · intro hq
    refine ⟨?_, ?_⟩
    · simp only [handleSameRepoCursor, fooborp, hlen, if_true, hq, hloop, hclose, Id.bind_eq,
        Id.pure_eq, bind, pure]
      simp [fooborpDrain, Cursor.zero]
    · intro log
      have hstop := refill_run_stop (traceHelpers h s) pager c.Identifier s.remoteDumpLimit
        totalCount fuel [] c.SkipDumpsWhenBatching
      simp only [handleSameRepoCursor, fooborp, hlen, if_true, Traced.run_bind, traceResolver,
        traceDB, Traced.run_call, hq, tracePagerResult, hstop _ (hcond _), hclose,
        List.map_nil, fooborpDrain, Traced.run_pure]
      simp [Traced.run_bind, Traced.run_pure, Traced.run_call, tracePager, hclose, hlim]
  · intro hq
    refine ⟨?_, ?_⟩
    · simp only [handleRemoteRepoCursor, fooborp, hlen, if_true, hq, hloop, hclose,
        Id.bind_eq, Id.pure_eq, bind, pure]
      simp [fooborpDrain]
    · intro log
      have hstop := refill_run_stop (traceHelpers h s) pager c.Identifier s.remoteDumpLimit
        totalCount fuel [] c.SkipDumpsWhenBatching
      simp only [handleRemoteRepoCursor, fooborp, hlen, if_true, Traced.run_bind,
        traceResolver, traceDB, Traced.run_call, hq, tracePagerResult, hstop _ (hcond _),
        hclose, List.map_nil, fooborpDrain, Traced.run_pure]
      simp [Traced.run_bind, Traced.run_pure, Traced.run_call, tracePager, hclose, hlim]

/-- Witness of C20: a same-repo cursor with no batch, on the resolver that
`Server.references` builds over the sample catalog. -/
theorem references_remoteDumpLimit_zero_witness :
    handleSameRepoCursor (sampleHelpers [])
        (referencesResolver (sampleDB [sampleDump 1])
          { BundleClient := fun _ => sampleBundleClient [] [sampleLocation 30] } 50
          "deadbeef" 10)
        { remoteRepoCursor 1 [] with Phase := "same-repo" } 3
      = some { locations := [],
               cursor := { Cursor.zero with
                 Phase := "remote-repo", DumpID := 1, Scheme := "gomod",
                 Identifier := "pkg:Foo", Name := "pkg", Version := "1.0.0" },
               hasNewCursor := true, err := none } :=
  ((references_remoteDumpLimit_zero (sampleHelpers []) (sampleDB [sampleDump 1])
    { BundleClient := fun _ => sampleBundleClient [] [sampleLocation 30] } 50 "deadbeef" 10
    _ rfl { remoteRepoCursor 1 [] with Phase := "same-repo" } 3 0 samplePager rfl rfl).2.2.2.1
    rfl).1

/-- C13 (failing input): limit 1, a same-dump cursor, a dump with two references, and a
catalog whose first lookup succeeds and whose second fails. The first pass of
`resolvePage` appends one location, the second pass fails, and `resolvePage` returns the
error together with the location of the first pass. -/
theorem resolvePage_keeps_locations_on_error :
    ((resolvePage (traceHelpers (sampleHelpers []) (sampleResolver [] [] [] 1))
        (flakyResolver [sampleLocation 10, sampleLocation 20] 1) (sameDumpCursor 1) 2).run []).1
      = some { locations := resolveLocationsWithDump (sampleDump 1) [sampleLocation 10],
               cursor := Cursor.zero, hasNewCursor := false,
               err := some (Error.other "connection reset") } ∧
    ((resolvePage (traceHelpers (sampleHelpers []) (sampleResolver [] [] [] 1))
        (flakyResolver [sampleLocation 10, sampleLocation 20] 1) (sameDumpCursor 1) 2).run []).2
      = [Event.getDumpByID 1, Event.references 1 "main.go" 10 2, Event.getDumpByID 1] :=
  ⟨rfl, rfl⟩

/-- C15 (failing input): a remote-repo cursor of originating dump 1 whose batch holds the
candidate 2; the catalog holds dump 1 only, so the candidate is absent. The drain loop
looks up `cursor.DumpID` instead of the candidate, finds dump 1, makes the bundle query
and emits its two results for index 0. -/
theorem fooborp_absent_candidate_not_skipped :
    (sampleDB [sampleDump 1]).GetDumpByID 2 = .ok none ∧
    handleRemoteRepoCursor (sampleHelpers [])
        (sampleResolver [sampleDump 1] [] [sampleLocation 30, sampleLocation 40] 10)
        (remoteRepoCursor 1 [2]) 0
      = some { locations := resolveLocationsWithDump (sampleDump 1)
                 [sampleLocation 30, sampleLocation 40],
               cursor := Cursor.zero, hasNewCursor := false, err := none } ∧
    ((handleRemoteRepoCursor
        (traceHelpers (sampleHelpers [])
          (sampleResolver [sampleDump 1] [] [sampleLocation 30, sampleLocation 40] 10))
        (traceResolver
          (sampleResolver [sampleDump 1] [] [sampleLocation 30, sampleLocation 40] 10))
        (remoteRepoCursor 1 [2]) 0).run []).2
      = [Event.getDumpByID 1, Event.monikerResults 1 "reference" "gomod" "pkg:Foo" 10 0] :=
  ⟨rfl, rfl, rfl⟩

/-- C17 (failing input): a remote-repo cursor with no batch, a pager over five rows,
`remoteDumpLimit = 1`, a Bloom filter that accepts every row, and bundles without
results. The refill accepts the first row and stops (offset 1, total 5), the candidate
yields nothing, and the traversal returns `hasNewCursor = false` without error although
four rows are left unscanned. -/
theorem fooborp_ends_before_exhaustion :
    fooborpRefillLoop sampleBloomHelpers
        (sampleRowsPager [⟨2, []⟩, ⟨3, []⟩, ⟨4, []⟩, ⟨5, []⟩, ⟨6, []⟩]) "pkg:Foo" 1 5 5 [] 0
      = some (.inr ([⟨2, []⟩], 1)) ∧
    ((1 : Int) < 5) ∧
    handleRemoteRepoCursor sampleBloomHelpers
        (sampleRowsResolver [sampleDump 1]
          [⟨2, []⟩, ⟨3, []⟩, ⟨4, []⟩, ⟨5, []⟩, ⟨6, []⟩] [] 1 10)
        (remoteRepoCursor 1 []) 5
      = some { locations := [], cursor := Cursor.zero, hasNewCursor := false,
               err := none } :=
  ⟨rfl, by decide, rfl⟩

/-- A value of `Except` is an error or a result. -/
theorem except_cases {ε α : Type} (x : Except ε α) :
    (∃ e, x = .error e) ∨ (∃ a, x = .ok a) := by
  cases x with
  | error e => exact Or.inl ⟨e, rfl⟩
  | ok a => exact Or.inr ⟨a, rfl⟩

/-- Shape of the call log of the refill loop: the `PageFromOffset` calls at the offsets
`offs`, every one but the last on a non-empty page, followed by `tail`, which is
`CloseTx` with the page error when a page fails and empty otherwise. With a Bloom filter
that scans at least one row of a non-empty page (when asked for at least one candidate),
the offsets never decrease, the calls
number at most `totalCount - newOffset`, and that much fuel suffices. -/
theorem fooborpRefillLoop_trace (h : Helpers Traced) (pager : ReferencePager Id)
    (identifier : String) (limit totalCount : Int) (fuel : Nat) :
    ∀ (refs : List Reference) (newOffset : Int) (log : List Event),
    ∃ (offs : List Int) (tail : List Event),
      ((fooborpRefillLoop h (tracePager pager) identifier limit totalCount fuel refs
          newOffset).run log).2 = log ++ offs.map Event.pageFromOffset ++ tail ∧
      (∀ (k : Nat) (o : Int), offs[k]? = some o → k + 1 < offs.length →
        ∃ page, pager.PageFromOffset o = .ok page ∧ page ≠ []) ∧
      (∀ out, ((fooborpRefillLoop h (tracePager pager) identifier limit totalCount fuel refs
          newOffset).run log).1 = some (.inr out) →
        tail = [] ∧ ∀ o ∈ offs, ∃ page, pager.PageFromOffset o = .ok page) ∧
      (∀ r, ((fooborpRefillLoop h (tracePager pager) identifier limit totalCount fuel refs
          newOffset).run log).1 = some (.inl r) →
        ∃ o err, o ∈ offs ∧ pager.PageFromOffset o = .error err ∧
          tail = [Event.closeTx (some err)] ∧
          r = { locations := [], cursor := Cursor.zero, hasNewCursor := false,
                err := pager.CloseTx (some err) }) ∧
      (((fooborpRefillLoop h (tracePager pager) identifier limit totalCount fuel refs
          newOffset).run log).1 = none → tail = []) ∧
      ((∀ (page : List Reference) (id : String) (lim : Int), page ≠ [] → 0 < lim →
          1 ≤ (h.applyBloomFilter page id lim).2) →
        offs.length ≤ (totalCount - newOffset).toNat ∧
        ((totalCount - newOffset).toNat ≤ fuel →
          ((fooborpRefillLoop h (tracePager pager) identifier limit totalCount fuel refs
            newOffset).run log).1 ≠ none) ∧
        (∀ refs1 off1, ((fooborpRefillLoop h (tracePager pager) identifier limit totalCount
            fuel refs newOffset).run log).1 = some (.inr (refs1, off1)) →
          newOffset ≤ off1)) := by
  induction fuel with
  | zero =>
    intro refs newOffset log
    by_cases hcond : (refs.length : Int) < limit ∧ newOffset < totalCount
    · rw [refill_run_zero h pager identifier limit totalCount refs newOffset log hcond]
      refine ⟨[], [], by simp, ?_, ?_, ?_, ?_, ?_⟩
      · intro k o hk; simp at hk
      · intro out hout; simp at hout
      · intro r hr; simp at hr
      · intro _; rfl
      · intro _
        refine ⟨by simp, ?_, ?_⟩
        · intro hf; omega
        · intro refs1 off1 hr; simp at hr
    · rw [refill_run_stop h pager identifier limit totalCount 0 refs newOffset log hcond]
      refine ⟨[], [], by simp, ?_, ?_, ?_, ?_, ?_⟩
      · intro k o hk; simp at hk
      · intro out _; exact ⟨rfl, by simp⟩
      · intro r hr; simp at hr
      · intro _; rfl
      · intro _
        refine ⟨by simp, by simp, ?_⟩
        intro refs1 off1 hr
        simp only [Option.some.injEq, Sum.inr.injEq, Prod.mk.injEq] at hr
        omega
  | succ n ih =>
    intro refs newOffset log
    by_cases hcond : (refs.length : Int) < limit ∧ newOffset < totalCount
    · rcases except_cases (pager.PageFromOffset newOffset) with ⟨err, hpage⟩ | ⟨page, hpage⟩
      · rw [refill_run_error h pager identifier limit totalCount n refs newOffset log err
          hcond hpage]
        refine ⟨[newOffset], [Event.closeTx (some err)], by simp, ?_, ?_, ?_, ?_, ?_⟩
        · intro k o _ hk; simp at hk
        · intro out hout; simp at hout
        · intro r hr
          simp only [Option.some.injEq, Sum.inl.injEq] at hr
          exact ⟨newOffset, err, by simp, hpage, rfl, hr.symm⟩
        · intro hn; simp at hn
        · intro _
          refine ⟨?_, by simp, ?_⟩
          · simp only [List.length_singleton]; omega
          · intro refs1 off1 hr; simp at hr
      · by_cases hne : page = []
        · subst hne
          rw [refill_run_empty h pager identifier limit totalCount n refs newOffset log
            hcond hpage]
          refine ⟨[newOffset], [], by simp, ?_, ?_, ?_, ?_, ?_⟩
          · intro k o _ hk; simp at hk
          · intro out _
            refine ⟨rfl, ?_⟩
            intro o ho
            simp only [List.mem_singleton] at ho
            subst ho
            exact ⟨[], hpage⟩
          · intro r hr; simp at hr
          · intro _; rfl
          · intro _
            refine ⟨?_, by simp, ?_⟩
            · simp only [List.length_singleton]; omega
            · intro refs1 off1 hr
              simp only [Option.some.injEq, Sum.inr.injEq, Prod.mk.injEq] at hr
              omega
        · rw [refill_run_more h pager identifier limit totalCount n refs newOffset log page
            hcond hpage hne]
          obtain ⟨offs, tail, hlog, hpages, hinr, hinl, hnone, hbloom⟩ :=
            ih (refs ++ (h.applyBloomFilter page identifier (limit - (refs.length : Int))).1)
              (newOffset +
                (h.applyBloomFilter page identifier (limit - (refs.length : Int))).2)
              (log ++ [Event.pageFromOffset newOffset])
          refine ⟨newOffset :: offs, tail, ?_, ?_, ?_, ?_, hnone, ?_⟩
          · rw [hlog]; simp
          · intro k o hk hlen
            cases k with
            | zero =>
              simp only [List.getElem?_cons_zero, Option.some.injEq] at hk
              subst hk
              exact ⟨page, hpage, hne⟩
            | succ k =>
              simp only [List.getElem?_cons_succ] at hk
              exact hpages k o hk (by simpa using hlen)
          · intro out hout
            obtain ⟨ht, hall⟩ := hinr out hout
            refine ⟨ht, ?_⟩
            intro o ho
            rcases List.mem_cons.mp ho with ho | ho
            · subst ho; exact ⟨page, hpage⟩
            · exact hall o ho
          · intro r hr
            obtain ⟨o, err, ho, hrest⟩ := hinl r hr
            exact ⟨o, err, List.mem_cons_of_mem _ ho, hrest⟩
          · intro hb
            obtain ⟨hcount, hterm, hmono⟩ := hbloom hb
            have hs := hb page identifier (limit - (refs.length : Int)) hne (by omega)
            refine ⟨?_, ?_, ?_⟩
            · simp only [List.length_cons]; omega
            · intro hf; exact hterm (by omega)
            · intro refs1 off1 hr
              have := hmono refs1 off1 hr
              omega
    · rw [refill_run_stop h pager identifier limit totalCount (n + 1) refs newOffset log
        hcond]
      refine ⟨[], [], by simp, ?_, ?_, ?_, ?_, ?_⟩
      · intro k o hk; simp at hk
      · intro out _; exact ⟨rfl, by simp⟩
      · intro r hr; simp at hr
      · intro _; rfl
      · intro _
        refine ⟨by simp, by simp, ?_⟩
        intro refs1 off1 hr
        simp only [Option.some.injEq, Sum.inr.injEq, Prod.mk.injEq] at hr
        omega


/-- C19: the refill loop terminates. For every pager (its calls recorded), total count
and starting offset, when the Bloom filter reports a scanned count of at least 1 on
every non-empty page (it is only ever asked for at least one candidate), fuel `max(0, totalCount - offset)` suffices for the loop to
return; it makes at most that many `PageFromOffset` calls, every call but the last is on
a non-empty page (so the loop stops at the first empty page), and the offset it hands
over on its normal exit is not smaller than the starting offset. -/
theorem fooborpRefillLoop_terminates (h : Helpers Traced) (pager : ReferencePager Id)
    (identifier : String) (limit totalCount offset : Int) (fuel : Nat)
    (refs : List Reference) (log : List Event)
    (hbloom : ∀ (page : List Reference) (id : String) (lim : Int), page ≠ [] → 0 < lim →
      1 ≤ (h.applyBloomFilter page id lim).2)
    (hfuel : (totalCount - offset).toNat ≤ fuel) :
    ∃ (out : Result ⊕ (List Reference × Int)) (offs : List Int) (tail : List Event),
      (fooborpRefillLoop h (tracePager pager) identifier limit totalCount fuel refs
          offset).run log = (some out, log ++ offs.map Event.pageFromOffset ++ tail) ∧
      (∀ ev ∈ tail, ev.isPageFromOffset = false) ∧
      offs.length ≤ (totalCount - offset).toNat ∧
      (∀ (k : Nat) (o : Int), offs[k]? = some o → k + 1 < offs.length →
        ∃ page, pager.PageFromOffset o = .ok page ∧ page ≠ []) ∧
      (∀ refs1 off1, out = .inr (refs1, off1) → offset ≤ off1) := by
  obtain ⟨offs, tail, hlog, hpages, hinr, hinl, _, hb⟩ :=
    fooborpRefillLoop_trace h pager identifier limit totalCount fuel refs offset log
  obtain ⟨hcount, hterm, hmono⟩ := hb hbloom
  have hsome := hterm hfuel
  cases hout : ((fooborpRefillLoop h (tracePager pager) identifier limit totalCount fuel refs
      offset).run log).1 with
  | none => exact absurd hout hsome
  | some out =>
    refine ⟨out, offs, tail, ?_, ?_, hcount, hpages, ?_⟩
    · rw [← hlog, ← hout]
    · cases out with
      | inl r =>
        obtain ⟨o, err, _, _, ht, _⟩ := hinl r hout
        intro ev hev
        rw [ht] at hev
        simp only [List.mem_singleton] at hev
        subst hev
        rfl
      | inr p =>
        obtain ⟨ht, _⟩ := hinr p hout
        intro ev hev
        rw [ht] at hev
        simp at hev
    · intro refs1 off1 h1
      subst h1
      exact hmono refs1 off1 hout

/-- Witness of C19: five rows served in pages of two, a Bloom filter that accepts every
row, room for ten candidates: three calls, at offsets 0, 2 and 4. -/
theorem fooborpRefillLoop_terminates_witness :
    ∃ (out : Result ⊕ (List Reference × Int)) (offs : List Int) (tail : List Event),
      (fooborpRefillLoop
          (traceHelpers sampleBloomHelpers (sampleResolver [] [] [] 10))
          (tracePager (sampleRowsPager [⟨2, []⟩, ⟨3, []⟩, ⟨4, []⟩, ⟨5, []⟩, ⟨6, []⟩]))
          "pkg:Foo" 10 5 5 [] 0).run []
        = (some out, [] ++ offs.map Event.pageFromOffset ++ tail) ∧
      (∀ ev ∈ tail, ev.isPageFromOffset = false) ∧
      offs.length ≤ ((5 : Int) - 0).toNat ∧
      (∀ (k : Nat) (o : Int), offs[k]? = some o → k + 1 < offs.length →
        ∃ page, (sampleRowsPager [⟨2, []⟩, ⟨3, []⟩, ⟨4, []⟩, ⟨5, []⟩, ⟨6, []⟩]).PageFromOffset o
          = .ok page ∧ page ≠ []) ∧
      (∀ refs1 off1, out = .inr (refs1, off1) → (0 : Int) ≤ off1) :=
  fooborpRefillLoop_terminates
    (traceHelpers sampleBloomHelpers (sampleResolver [] [] [] 10))
    (sampleRowsPager [⟨2, []⟩, ⟨3, []⟩, ⟨4, []⟩, ⟨5, []⟩, ⟨6, []⟩]) "pkg:Foo" 10 5 0 5 [] []
    (by
      intro page id lim hne hlim
      cases page with
      | nil => exact absurd rfl hne
      | cons r rest =>
        show (1 : Int) ≤ ((min (r :: rest).length lim.toNat : Nat) : Int)
        simp only [List.length_cons]
        omega)
    (by decide)

/-- The catalog lookup of a recording resolver. -/
theorem traceResolver_getDumpByID (s : ReferencePageResolver Id) (id : Int) :
    (traceResolver s).db.GetDumpByID id
      = Traced.call (Event.getDumpByID id) (s.db.GetDumpByID id) := rfl

/-- The moniker query of a recording resolver. -/
theorem traceResolver_monikerResults (s : ReferencePageResolver Id) (dumpID : Int)
    (kind scheme identifier : String) (limit skip : Int) :
    ((traceResolver s).bundleManagerClient.BundleClient dumpID).MonikerResults kind scheme
        identifier limit skip
      = Traced.call (Event.monikerResults dumpID kind scheme identifier limit skip)
          ((s.bundleManagerClient.BundleClient dumpID).MonikerResults kind scheme identifier
            limit skip) := rfl

/-- The limit of a recording resolver. -/
theorem traceResolver_limit (s : ReferencePageResolver Id) :
    (traceResolver s).limit = s.limit := rfl

/-- The drain loop calls the catalog and the bundles only: its part of the call log
holds no pager call. -/
theorem fooborpDrain_trace (s : ReferencePageResolver Id) (c : Cursor) (l : List Int) :
    ∀ (i : Nat) (log : List Event),
    ∃ evs : List Event,
      ((fooborpDrain (traceResolver s) c i l).run log).2 = log ++ evs ∧
      ∀ ev ∈ evs, ev.isPagerCall = false := by
  induction l with
  | nil =>
    intro i log
    exact ⟨[], by simp [fooborpDrain, Traced.run_pure], by simp⟩
  | cons b rest ih =>
    intro i log
    by_cases hg : (i : Int) < c.SkipDumpsInBatch ∨ b = c.DumpID
    · have hstep : fooborpDrain (traceResolver s) c i (b :: rest)
          = fooborpDrain (traceResolver s) c (i + 1) rest := by
        simp only [fooborpDrain, hg, if_true]
      rw [hstep]
      exact ih _ _
    · rcases except_cases (s.db.GetDumpByID c.DumpID) with ⟨e, hget⟩ | ⟨od, hget⟩
      · refine ⟨[Event.getDumpByID c.DumpID], ?_, ?_⟩
        · simp only [fooborpDrain, hg, if_false, traceResolver_getDumpByID, Traced.run_bind,
            Traced.run_call, hget, Traced.run_pure]
        · intro ev hev
          simp only [List.mem_singleton] at hev
          subst hev
          rfl
      · cases od with
        | none =>
          obtain ⟨evs, hlog, hall⟩ := ih (i + 1) (log ++ [Event.getDumpByID c.DumpID])
          refine ⟨Event.getDumpByID c.DumpID :: evs, ?_, ?_⟩
          · simp only [fooborpDrain, hg, if_false, traceResolver_getDumpByID, Traced.run_bind,
              Traced.run_call, hget]
            rw [hlog]
            simp
          · intro ev hev
            rcases List.mem_cons.mp hev with hev | hev
            · subst hev; rfl
            · exact hall ev hev
        | some d =>
          rcases except_cases ((s.bundleManagerClient.BundleClient d.ID).MonikerResults
            "reference" c.Scheme c.Identifier s.limit c.SkipResultsInDump)
            with ⟨e, hmr⟩ | ⟨⟨results, count⟩, hmr⟩
          · refine ⟨[Event.getDumpByID c.DumpID, Event.monikerResults d.ID "reference"
              c.Scheme c.Identifier s.limit c.SkipResultsInDump], ?_, ?_⟩
            · simp only [fooborpDrain, hg, if_false, traceResolver_getDumpByID,
                traceResolver_monikerResults, traceResolver_limit, Traced.run_bind, Traced.run_call,
                hget, hmr, Traced.run_pure, List.append_assoc, List.singleton_append]
            · intro ev hev
              simp only [List.mem_cons, List.mem_singleton, List.not_mem_nil, or_false] at hev
              rcases hev with hev | hev <;> subst hev <;> rfl
          · by_cases hlen : results.length = 0
            · obtain ⟨evs, hlog, hall⟩ := ih (i + 1)
                (log ++ [Event.getDumpByID c.DumpID] ++ [Event.monikerResults d.ID "reference"
                  c.Scheme c.Identifier s.limit c.SkipResultsInDump])
              refine ⟨Event.getDumpByID c.DumpID :: Event.monikerResults d.ID "reference"
                c.Scheme c.Identifier s.limit c.SkipResultsInDump :: evs, ?_, ?_⟩
              · simp only [fooborpDrain, hg, if_false, traceResolver_getDumpByID,
                  traceResolver_monikerResults, traceResolver_limit, Traced.run_bind,
                  Traced.run_call, hget, hmr, hlen, if_true]
                rw [hlog]
                simp
              · intro ev hev
                rcases List.mem_cons.mp hev with hev | hev
                · subst hev; rfl
                · rcases List.mem_cons.mp hev with hev | hev
                  · subst hev; rfl
                  · exact hall ev hev
            · refine ⟨[Event.getDumpByID c.DumpID, Event.monikerResults d.ID "reference"
                c.Scheme c.Identifier s.limit c.SkipResultsInDump], ?_, ?_⟩
              · simp only [fooborpDrain, hg, if_false, traceResolver_getDumpByID,
                  traceResolver_monikerResults, traceResolver_limit, Traced.run_bind,
                  Traced.run_call, hget, hmr, hlen]
                split_ifs <;> simp [Traced.run_pure]
              · intro ev hev
                simp only [List.mem_cons, List.mem_singleton, List.not_mem_nil, or_false]
                  at hev
                rcases hev with hev | hev <;> subst hev <;> rfl

/-- The `remoteDumpLimit` of a recording resolver. -/
theorem traceResolver_remoteDumpLimit (s : ReferencePageResolver Id) :
    (traceResolver s).remoteDumpLimit = s.remoteDumpLimit := rfl

/-- A value of `Option` is `none` or `some`. -/
theorem option_cases {α : Type} (x : Option α) : x = none ∨ ∃ a, x = some a := by
  cases x with
  | none => exact Or.inl rfl
  | some a => exact Or.inr ⟨a, rfl⟩

/-- No `PageFromOffset` event is a `CloseTx` event. -/
theorem filter_isCloseTx_pageFromOffset (offs : List Int) :
    (offs.map Event.pageFromOffset).filter Event.isCloseTx = [] := by
  induction offs with
  | nil => rfl
  | cons o offs ih => simp [List.filter_cons, Event.isCloseTx]

/-- A list without pager calls holds no `CloseTx` event. -/
theorem filter_isCloseTx_of_no_pagerCall (evs : List Event)
    (hall : ∀ ev ∈ evs, ev.isPagerCall = false) : evs.filter Event.isCloseTx = [] := by
  rw [List.filter_eq_nil_iff]
  intro ev hev hclose
  have := hall ev hev
  cases ev <;> simp [Event.isCloseTx, Event.isPagerCall] at hclose this

/-- C14: in a run of the candidate-dump traversal with recording collaborators. When
`DumpIDs` is non-empty on entry, the pager factory is not called and no pager call is
made. When `DumpIDs` is empty, the factory succeeds and the traversal returns, `CloseTx`
is called exactly once: with nil when every `PageFromOffset` call succeeded, and with
the page error when a `PageFromOffset` call failed, in which case the traversal returns
the value of that `CloseTx` call as its error, with no locations and no cursor. -/
theorem fooborp_closeTx_once (h : Helpers Traced) (s : ReferencePageResolver Id) (c : Cursor)
    (evq : Event) (q : Except Error (Int × ReferencePager Id)) (fuel : Nat)
    (log : List Event) :
    (c.DumpIDs ≠ [] →
      (fooborp h (traceResolver s) c (Traced.call evq (tracePagerResult q)) fuel).run log
        = (some ((fooborpDrain (traceResolver s) c 0 c.DumpIDs).run log).1,
           ((fooborpDrain (traceResolver s) c 0 c.DumpIDs).run log).2) ∧
      ∃ evs : List Event,
        ((fooborp h (traceResolver s) c (Traced.call evq (tracePagerResult q)) fuel).run log).2
          = log ++ evs ∧
        ∀ ev ∈ evs, ev.isPagerCall = false) ∧
    (c.DumpIDs = [] → ∀ (totalCount : Int) (pager : ReferencePager Id) (r : Result),
      q = .ok (totalCount, pager) →
      ((fooborp h (traceResolver s) c (Traced.call evq (tracePagerResult q)) fuel).run log).1
        = some r →
      ∃ (evs : List Event) (e : Option Error),
        ((fooborp h (traceResolver s) c (Traced.call evq (tracePagerResult q)) fuel).run log).2
          = log ++ evq :: evs ∧
        evs.filter Event.isCloseTx = [Event.closeTx e] ∧
        ((e = none ∧ ∀ o, Event.pageFromOffset o ∈ evs →
            ∃ page, pager.PageFromOffset o = .ok page) ∨
         (∃ o err, Event.pageFromOffset o ∈ evs ∧ pager.PageFromOffset o = .error err ∧
            e = some err ∧
            r = { locations := [], cursor := Cursor.zero, hasNewCursor := false,
                  err := pager.CloseTx (some err) }))) := by
  refine ⟨?_, ?_⟩
  · intro hne
    have hlen : ¬ c.DumpIDs.length = 0 := fun h0 => hne (List.length_eq_zero.mp h0)
    have hrun : (fooborp h (traceResolver s) c (Traced.call evq (tracePagerResult q)) fuel).run
        log = (some ((fooborpDrain (traceResolver s) c 0 c.DumpIDs).run log).1,
           ((fooborpDrain (traceResolver s) c 0 c.DumpIDs).run log).2) := by
      simp only [fooborp, hlen, if_false, Traced.run_bind, Traced.run_pure]
    refine ⟨hrun, ?_⟩
    rw [hrun]
    exact fooborpDrain_trace s c c.DumpIDs 0 log
  · intro hempty totalCount pager r hq hr
    have hlen : c.DumpIDs.length = 0 := by rw [hempty]; rfl
    obtain ⟨offs, tail, hlog, -, hinr, hinl, -, -⟩ :=
      fooborpRefillLoop_trace h pager c.Identifier s.remoteDumpLimit totalCount fuel []
        c.SkipDumpsWhenBatching (log ++ [evq])
    simp only [fooborp, hlen, if_true, Traced.run_bind, Traced.run_call, hq, tracePagerResult,
      traceResolver_remoteDumpLimit] at hr ⊢
    generalize hR : (fooborpRefillLoop h (tracePager pager) c.Identifier s.remoteDumpLimit
      totalCount fuel [] c.SkipDumpsWhenBatching).run (log ++ [evq]) = R at hr hlog hinr hinl ⊢
    obtain ⟨res, log1⟩ := R
    simp only at hr hlog hinr hinl ⊢
    cases res with
    | none => simp [Traced.run_pure] at hr
    | some out =>
      cases out with
      | inl r1 =>
        simp only [Traced.run_pure, Option.some.injEq] at hr ⊢
        obtain ⟨o, err, ho, hpage, htail, hr1⟩ := hinl r1 rfl
        refine ⟨offs.map Event.pageFromOffset ++ [Event.closeTx (some err)], some err, ?_, ?_,
          Or.inr ⟨o, err, ?_, hpage, rfl, ?_⟩⟩
        · rw [hlog, htail]; simp
        · rw [List.filter_append, filter_isCloseTx_pageFromOffset]
          rfl
        · simp [ho]
        · rw [← hr, hr1]
      | inr p =>
        obtain ⟨refs, newOffset⟩ := p
        obtain ⟨htail, hpages⟩ := hinr (refs, newOffset) rfl
        subst htail
        simp only [tracePager, Traced.run_bind, Traced.run_call] at hr ⊢
        rcases option_cases (pager.CloseTx none) with hclose | ⟨cerr, hclose⟩
        · simp only [hclose, Traced.run_bind, Traced.run_pure] at hr ⊢
          obtain ⟨evsD, hlogD, hallD⟩ := fooborpDrain_trace s
            { c with DumpIDs := refs.map fun ref => ref.DumpID,
                     SkipDumpsWhenBatching := newOffset,
                     TotalDumpsWhenBatching := totalCount }
            (refs.map fun ref => ref.DumpID) 0 (log1 ++ [Event.closeTx none])
          refine ⟨offs.map Event.pageFromOffset ++ [Event.closeTx none] ++ evsD, none, ?_, ?_,
            Or.inl ⟨rfl, ?_⟩⟩
          · rw [hlogD, hlog]; simp
          · rw [List.filter_append, List.filter_append, filter_isCloseTx_pageFromOffset,
              filter_isCloseTx_of_no_pagerCall evsD hallD]
            rfl
          · intro o ho
            simp only [List.mem_append, List.mem_map, List.mem_singleton] at ho
            rcases ho with (⟨a, ha, hao⟩ | ho) | ho
            · cases hao
              exact hpages o ha
            · cases ho
            · have := hallD _ ho
              simp [Event.isPagerCall] at this
        · simp only [hclose, Traced.run_bind, Traced.run_pure] at hr ⊢
          refine ⟨offs.map Event.pageFromOffset ++ [Event.closeTx none], none, ?_, ?_,
            Or.inl ⟨rfl, ?_⟩⟩
          · rw [hlog]; simp
          · rw [List.filter_append, filter_isCloseTx_pageFromOffset]
            rfl
          · intro o ho
            simp only [List.mem_append, List.mem_map, List.mem_singleton] at ho
            rcases ho with ⟨a, ha, hao⟩ | ho
            · cases hao
              exact hpages o ha
            · cases ho

/-- Witness of C14: a remote-repo cursor with no batch over a pager of five rows; the
pager is opened, read and closed once with nil. -/
theorem fooborp_closeTx_once_witness :
    ∃ (evs : List Event) (e : Option Error),
      ((fooborp (traceHelpers sampleBloomHelpers (sampleResolver [] [] [] 10))
          (traceResolver (sampleRowsResolver [sampleDump 1]
            [⟨2, []⟩, ⟨3, []⟩, ⟨4, []⟩, ⟨5, []⟩, ⟨6, []⟩] [] 1 10))
          (remoteRepoCursor 1 [])
          (Traced.call (Event.packageReferencePager "gomod" "pkg" "1.0.0" 50 1)
            (tracePagerResult (.ok (5, sampleRowsPager
              [⟨2, []⟩, ⟨3, []⟩, ⟨4, []⟩, ⟨5, []⟩, ⟨6, []⟩])))) 5).run []).2
        = [] ++ Event.packageReferencePager "gomod" "pkg" "1.0.0" 50 1 :: evs ∧
      evs.filter Event.isCloseTx = [Event.closeTx e] ∧
      ((e = none ∧ ∀ o, Event.pageFromOffset o ∈ evs →
          ∃ page, (sampleRowsPager
            [⟨2, []⟩, ⟨3, []⟩, ⟨4, []⟩, ⟨5, []⟩, ⟨6, []⟩]).PageFromOffset o = .ok page) ∨
       (∃ o err, Event.pageFromOffset o ∈ evs ∧
          (sampleRowsPager [⟨2, []⟩, ⟨3, []⟩, ⟨4, []⟩, ⟨5, []⟩, ⟨6, []⟩]).PageFromOffset o
            = .error err ∧
          e = some err ∧
          ({ locations := [], cursor := Cursor.zero, hasNewCursor := false, err := none }
              : Result)
            = { locations := [], cursor := Cursor.zero, hasNewCursor := false,
                err := (sampleRowsPager
                  [⟨2, []⟩, ⟨3, []⟩, ⟨4, []⟩, ⟨5, []⟩, ⟨6, []⟩]).CloseTx (some err) })) :=
  (fooborp_closeTx_once (traceHelpers sampleBloomHelpers (sampleResolver [] [] [] 10))
    (sampleRowsResolver [sampleDump 1] [⟨2, []⟩, ⟨3, []⟩, ⟨4, []⟩, ⟨5, []⟩, ⟨6, []⟩] [] 1 10)
    (remoteRepoCursor 1 []) (Event.packageReferencePager "gomod" "pkg" "1.0.0" 50 1)
    (.ok (5, sampleRowsPager [⟨2, []⟩, ⟨3, []⟩, ⟨4, []⟩, ⟨5, []⟩, ⟨6, []⟩])) 5 []).2
    rfl 5 (sampleRowsPager [⟨2, []⟩, ⟨3, []⟩, ⟨4, []⟩, ⟨5, []⟩, ⟨6, []⟩])
    { locations := [], cursor := Cursor.zero, hasNewCursor := false, err := none } rfl rfl

/-- The result of `handleSameDumpCursor` when the dump exists, the bundle calls succeed
and the new offset does not wrap, with `A` the references followed by the results of the
monikers. -/
theorem handleSameDumpCursor_run (s : ReferencePageResolver Id) (c : Cursor) (d : Dump)
    (refs : List Location) (mr : MonikerData → List Location)
    (hd : s.db.GetDumpByID c.DumpID = .ok (some d))
    (hr : (s.bundleManagerClient.BundleClient d.ID).References c.Path c.Line c.Character
      = .ok refs)
    (hm : ∀ mk ∈ c.Monikers, ∃ count,
      (s.bundleManagerClient.BundleClient d.ID).MonikerResults "reference" mk.Scheme
        mk.Identifier 0 0 = .ok (mr mk, count))
    (hoff : (if (refs ++ (c.Monikers.map mr).flatten).length < maxSliceLen then
        addInt64 c.SkipResults s.limit else c.SkipResults + s.limit)
      = c.SkipResults + s.limit) :
    handleSameDumpCursor s c =
      (if c.SkipResults + s.limit ≤ ((refs ++ (c.Monikers.map mr).flatten).length : Int) then
        { locations := resolveLocationsWithDump d
            (sliceLocations (refs ++ (c.Monikers.map mr).flatten) c.SkipResults
              (c.SkipResults + s.limit)),
          cursor := { Cursor.zero with
            Phase := c.Phase, DumpID := c.DumpID, Path := c.Path, Line := c.Line,
            Character := c.Character, Monikers := c.Monikers,
            SkipResults := c.SkipResults + s.limit },
          hasNewCursor := true, err := none }
      else
        { locations := resolveLocationsWithDump d
            (sliceLocations (refs ++ (c.Monikers.map mr).flatten) c.SkipResults
              (c.SkipResults + s.limit)),
          cursor := { Cursor.zero with
            DumpID := c.DumpID, Phase := "definition-monikers", Path := c.Path,
            Line := c.Line, Character := c.Character, Monikers := c.Monikers,
            SkipResults := 0 },
          hasNewCursor := true, err := none } : Result) := by
  have hloop := sameDumpMonikerLoop_ok (s.bundleManagerClient.BundleClient d.ID) mr
    c.Monikers refs hm
  simp only [handleSameDumpCursor, hd, hr, hloop, Id.bind_eq, Id.pure_eq, bind, pure, hoff]

/-- Consecutive slices of width `w` put together give a prefix of the list. -/
theorem slices_flatten {α : Type} (xs : List α) (w : Nat) (n : Nat) :
    ((List.range n).map fun k => (xs.take (k * w + w)).drop (k * w)).flatten
      = xs.take (n * w) := by
  induction n with
  | zero => simp
  | succ n ih =>
    rw [List.range_succ, List.map_append, List.flatten_append, ih]
    simp only [List.map_cons, List.map_nil, List.flatten_cons, List.flatten_nil,
      List.append_nil]
    have hmin : min (n * w) (n * w + w) = n * w := Nat.min_eq_left (Nat.le_add_right _ _)
    have htake : xs.take (n * w) = (xs.take (n * w + w)).take (n * w) := by
      rw [List.take_take, hmin]
    rw [htake, List.take_append_drop, Nat.succ_mul]

/-- One application of `handleSameDumpCursor` in the paging of the same-dump phase: on a
cursor that agrees with `c` and stands at offset `k * w`, where `w` is the limit. -/
theorem handleSameDumpCursor_step (s : ReferencePageResolver Id) (c ck : Cursor) (d : Dump)
    (refs : List Location) (mr : MonikerData → List Location) (w k : Nat)
    (hw : s.limit = (w : Int))
    (hd : s.db.GetDumpByID c.DumpID = .ok (some d))
    (hr : (s.bundleManagerClient.BundleClient d.ID).References c.Path c.Line c.Character
      = .ok refs)
    (hm : ∀ mk ∈ c.Monikers, ∃ count,
      (s.bundleManagerClient.BundleClient d.ID).MonikerResults "reference" mk.Scheme
        mk.Identifier 0 0 = .ok (mr mk, count))
    (hPh : ck.Phase = "same-dump") (hD : ck.DumpID = c.DumpID) (hP : ck.Path = c.Path)
    (hLn : ck.Line = c.Line) (hCh : ck.Character = c.Character)
    (hM : ck.Monikers = c.Monikers) (hS : ck.SkipResults = ((k * w : Nat) : Int))
    (hk : k * w ≤ (refs ++ (c.Monikers.map mr).flatten).length) :
    handleSameDumpCursor s ck =
      (if k * w + w ≤ (refs ++ (c.Monikers.map mr).flatten).length then
        { locations := resolveLocationsWithDump d
            (((refs ++ (c.Monikers.map mr).flatten).take (k * w + w)).drop (k * w)),
          cursor := { Cursor.zero with
            Phase := "same-dump", DumpID := c.DumpID, Path := c.Path, Line := c.Line,
            Character := c.Character, Monikers := c.Monikers,
            SkipResults := (((k + 1) * w : Nat) : Int) },
          hasNewCursor := true, err := none }
      else
        { locations := resolveLocationsWithDump d
            (((refs ++ (c.Monikers.map mr).flatten).take (k * w + w)).drop (k * w)),
          cursor := { Cursor.zero with
            DumpID := c.DumpID, Phase := "definition-monikers", Path := c.Path,
            Line := c.Line, Character := c.Character, Monikers := c.Monikers,
            SkipResults := 0 },
          hasNewCursor := true, err := none } : Result) := by
  have hoff : (if (refs ++ (ck.Monikers.map mr).flatten).length < maxSliceLen then
        addInt64 ck.SkipResults s.limit else ck.SkipResults + s.limit)
      = ck.SkipResults + s.limit := by
    rw [hM, hS, hw]
    split
    · rename_i hlen
      unfold addInt64
      split
      · rename_i hops
        apply wrapInt64_of_isInt64
        simp only [isInt64, Bool.and_eq_true, decide_eq_true_eq] at hops ⊢
        unfold maxSliceLen at hlen
        cases k with
        | zero => omega
        | succ j =>
          have hwle : w ≤ (j + 1) * w := Nat.le_mul_of_pos_left w (Nat.succ_pos j)
          omega
      · rfl
    · rfl
  have hrun := handleSameDumpCursor_run s ck d refs mr (by rw [hD]; exact hd)
    (by rw [hP, hLn, hCh]; exact hr) (by rw [hM]; exact hm) hoff
  rw [hrun]
  have hhi : (((k * w : Nat) : Int) + (w : Int)).toNat = k * w + w := by omega
  have hlo : (((k * w : Nat) : Int)).toNat = k * w := by omega
  have hnext : ((k * w : Nat) : Int) + (w : Int) = (((k + 1) * w : Nat) : Int) := by
    rw [Nat.succ_mul]; omega
  have hcond : (((k * w : Nat) : Int) + (w : Int)
      ≤ ((refs ++ (c.Monikers.map mr).flatten).length : Int))
      ↔ k * w + w ≤ (refs ++ (c.Monikers.map mr).flatten).length := by omega
  simp only [hPh, hD, hP, hLn, hCh, hM, hS, hw, sliceLocations, hhi, hlo, hcond]
  split <;> simp only [hnext]

/-- C18: paging through the same-dump phase. With limit `L >= 1`, a dump `d` that exists
and bundle calls that return the fixed aggregate `A`, starting from a same-dump cursor at
`SkipResults = 0` and re-applying `handleSameDumpCursor` to the cursor it returns: the
input cursors of the applications number `0` to `floor(len(A)/L)` are same-dump cursors
and every one of these applications returns a next cursor without error; the cursor
returned by the last of them is a `definition-monikers` cursor with `SkipResults = 0`, so
the handler is applied `floor(len(A)/L) + 1` times; and the batches of these applications,
put together, are `A` resolved with `d`. -/
theorem handleSameDumpCursor_paging (s : ReferencePageResolver Id) (c : Cursor) (d : Dump)
    (refs : List Location) (mr : MonikerData → List Location)
    (hL : 1 ≤ s.limit) (hphase : c.Phase = "same-dump") (hskip : c.SkipResults = 0)
    (hd : s.db.GetDumpByID c.DumpID = .ok (some d))
    (hr : (s.bundleManagerClient.BundleClient d.ID).References c.Path c.Line c.Character
      = .ok refs)
    (hm : ∀ mk ∈ c.Monikers, ∃ count,
      (s.bundleManagerClient.BundleClient d.ID).MonikerResults "reference" mk.Scheme
        mk.Identifier 0 0 = .ok (mr mk, count)) :
    (∀ k, k ≤ (refs ++ (c.Monikers.map mr).flatten).length / s.limit.toNat →
      (sameDumpCursorAfter s c k).Phase = "same-dump" ∧
      (handleSameDumpCursor s (sameDumpCursorAfter s c k)).hasNewCursor = true ∧
      (handleSameDumpCursor s (sameDumpCursorAfter s c k)).err = none) ∧
    (sameDumpCursorAfter s c
      ((refs ++ (c.Monikers.map mr).flatten).length / s.limit.toNat + 1)).Phase
        = "definition-monikers" ∧
    (sameDumpCursorAfter s c
      ((refs ++ (c.Monikers.map mr).flatten).length / s.limit.toNat + 1)).SkipResults = 0 ∧
    sameDumpBatches s c ((refs ++ (c.Monikers.map mr).flatten).length / s.limit.toNat + 1)
      = (refs ++ (c.Monikers.map mr).flatten).map
          (fun l => { Dump := d, Path := d.Root ++ l.Path, Range := l.Range }) := by
  have hw : s.limit = ((s.limit.toNat : Nat) : Int) := by omega
  have hwpos : 0 < s.limit.toNat := by omega
  generalize hA : refs ++ (c.Monikers.map mr).flatten = A at *
  generalize hwn : s.limit.toNat = w at *
  have hN1 : A.length / w * w ≤ A.length := Nat.div_mul_le_self _ _
  have hN2 : A.length < A.length / w * w + w := by
    have := Nat.lt_mul_div_succ A.length hwpos
    rw [Nat.mul_succ, Nat.mul_comm] at this
    exact this
  have hlt : ∀ k, k < A.length / w → k * w + w ≤ A.length := by
    intro k hk
    have : (k + 1) * w ≤ A.length / w * w := Nat.mul_le_mul_right w hk
    rw [Nat.succ_mul] at this
    omega
  have hstep : ∀ (ck : Cursor) (k : Nat), ck.Phase = "same-dump" → ck.DumpID = c.DumpID →
      ck.Path = c.Path → ck.Line = c.Line → ck.Character = c.Character →
      ck.Monikers = c.Monikers → ck.SkipResults = ((k * w : Nat) : Int) →
      k ≤ A.length / w →
      handleSameDumpCursor s ck =
        (if k * w + w ≤ A.length then
          { locations := resolveLocationsWithDump d ((A.take (k * w + w)).drop (k * w)),
            cursor := { Cursor.zero with
              Phase := "same-dump", DumpID := c.DumpID, Path := c.Path, Line := c.Line,
              Character := c.Character, Monikers := c.Monikers,
              SkipResults := (((k + 1) * w : Nat) : Int) },
            hasNewCursor := true, err := none }
        else
          { locations := resolveLocationsWithDump d ((A.take (k * w + w)).drop (k * w)),
            cursor := { Cursor.zero with
              DumpID := c.DumpID, Phase := "definition-monikers", Path := c.Path,
              Line := c.Line, Character := c.Character, Monikers := c.Monikers,
              SkipResults := 0 },
            hasNewCursor := true, err := none } : Result) := by
    intro ck k hPh hD hP hLn hCh hM hS hkN
    have hkw : k * w ≤ A.length := Nat.le_trans (Nat.mul_le_mul_right w hkN) hN1
    have := handleSameDumpCursor_step s c ck d refs mr w k hw hd hr hm hPh hD hP hLn hCh hM hS
      (by rw [hA]; exact hkw)
    rw [hA] at this
    exact this
  have hinv : ∀ k, k ≤ A.length / w →
      (sameDumpCursorAfter s c k).Phase = "same-dump" ∧
      (sameDumpCursorAfter s c k).DumpID = c.DumpID ∧
      (sameDumpCursorAfter s c k).Path = c.Path ∧
      (sameDumpCursorAfter s c k).Line = c.Line ∧
      (sameDumpCursorAfter s c k).Character = c.Character ∧
      (sameDumpCursorAfter s c k).Monikers = c.Monikers ∧
      (sameDumpCursorAfter s c k).SkipResults = ((k * w : Nat) : Int) := by
    intro k
    induction k with
    | zero =>
      intro _
      exact ⟨hphase, rfl, rfl, rfl, rfl, rfl, by simpa using hskip⟩
    | succ k ih =>
      intro hk
      obtain ⟨hPh, hD, hP, hLn, hCh, hM, hS⟩ := ih (by omega)
      have hrun := hstep _ k hPh hD hP hLn hCh hM hS (by omega)
      have hle : k * w + w ≤ A.length := hlt k (by omega)
      simp only [hle, if_true] at hrun
      rw [show sameDumpCursorAfter s c (k + 1)
        = (handleSameDumpCursor s (sameDumpCursorAfter s c k)).cursor from rfl, hrun]
      exact ⟨rfl, rfl, rfl, rfl, rfl, rfl, rfl⟩
  have hres : ∀ k, k ≤ A.length / w →
      (handleSameDumpCursor s (sameDumpCursorAfter s c k)).hasNewCursor = true ∧
      (handleSameDumpCursor s (sameDumpCursorAfter s c k)).err = none ∧
      (handleSameDumpCursor s (sameDumpCursorAfter s c k)).locations
        = resolveLocationsWithDump d ((A.take (k * w + w)).drop (k * w)) := by
    intro k hk
    obtain ⟨hPh, hD, hP, hLn, hCh, hM, hS⟩ := hinv k hk
    rw [hstep _ k hPh hD hP hLn hCh hM hS hk]
    split <;> exact ⟨rfl, rfl, rfl⟩
  have hlast : handleSameDumpCursor s (sameDumpCursorAfter s c (A.length / w)) =
      { locations := resolveLocationsWithDump d
          ((A.take (A.length / w * w + w)).drop (A.length / w * w)),
        cursor := { Cursor.zero with
          DumpID := c.DumpID, Phase := "definition-monikers", Path := c.Path,
          Line := c.Line, Character := c.Character, Monikers := c.Monikers,
          SkipResults := 0 },
        hasNewCursor := true, err := none } := by
    obtain ⟨hPh, hD, hP, hLn, hCh, hM, hS⟩ := hinv (A.length / w) (Nat.le_refl _)
    rw [hstep _ _ hPh hD hP hLn hCh hM hS (Nat.le_refl _)]
    have hnot : ¬ A.length / w * w + w ≤ A.length := by omega
    simp only [hnot, if_false]
  refine ⟨?_, ?_, ?_, ?_⟩
  · intro k hk
    exact ⟨(hinv k hk).1, (hres k hk).1, (hres k hk).2.1⟩
  · simp only [sameDumpCursorAfter, hlast]
  · simp only [sameDumpCursorAfter, hlast]
  · unfold sameDumpBatches
    have hmap : (List.range (A.length / w + 1)).map
          (fun k => (handleSameDumpCursor s (sameDumpCursorAfter s c k)).locations)
        = (List.range (A.length / w + 1)).map
          (fun k => resolveLocationsWithDump d ((A.take (k * w + w)).drop (k * w))) := by
      apply List.map_congr_left
      intro k hk
      exact (hres k (by simpa [Nat.lt_succ_iff] using hk)).2.2
    rw [hmap]
    have hslices := slices_flatten A w (A.length / w + 1)
    have hall : A.take ((A.length / w + 1) * w) = A := by
      apply List.take_of_length_le
      rw [Nat.succ_mul]
      omega
    rw [hall] at hslices
    have : (List.range (A.length / w + 1)).map
          (fun k => resolveLocationsWithDump d ((A.take (k * w + w)).drop (k * w)))
        = ((List.range (A.length / w + 1)).map
            (fun k => (A.take (k * w + w)).drop (k * w))).map
              (List.map (fun l => ({ Dump := d, Path := d.Root ++ l.Path, Range := l.Range }
                : ResolvedLocation))) := by
      rw [List.map_map]
      rfl
    rw [this, ← List.map_flatten, hslices]

/-- Witness of C18 (scenario S2): seven references and limit 3: three applications, the
third of which hands over to `definition-monikers`. -/
theorem handleSameDumpCursor_paging_witness :
    (sameDumpCursorAfter
        (sampleResolver [sampleDump 1]
          [sampleLocation 1, sampleLocation 2, sampleLocation 3, sampleLocation 4,
           sampleLocation 5, sampleLocation 6, sampleLocation 7] [] 3)
        (sameDumpCursor 1) 3).Phase = "definition-monikers" ∧
    (sameDumpCursorAfter
        (sampleResolver [sampleDump 1]
          [sampleLocation 1, sampleLocation 2, sampleLocation 3, sampleLocation 4,
           sampleLocation 5, sampleLocation 6, sampleLocation 7] [] 3)
        (sameDumpCursor 1) 3).SkipResults = 0 :=
  ⟨(handleSameDumpCursor_paging
      (sampleResolver [sampleDump 1]
        [sampleLocation 1, sampleLocation 2, sampleLocation 3, sampleLocation 4,
         sampleLocation 5, sampleLocation 6, sampleLocation 7] [] 3)
      (sameDumpCursor 1) (sampleDump 1)
      [sampleLocation 1, sampleLocation 2, sampleLocation 3, sampleLocation 4,
       sampleLocation 5, sampleLocation 6, sampleLocation 7] (fun _ => [])
      (by decide) rfl rfl rfl rfl (fun _ hmk => absurd hmk (List.not_mem_nil _))).2.1,
   (handleSameDumpCursor_paging
      (sampleResolver [sampleDump 1]
        [sampleLocation 1, sampleLocation 2, sampleLocation 3, sampleLocation 4,
         sampleLocation 5, sampleLocation 6, sampleLocation 7] [] 3)
      (sameDumpCursor 1) (sampleDump 1)
      [sampleLocation 1, sampleLocation 2, sampleLocation 3, sampleLocation 4,
       sampleLocation 5, sampleLocation 6, sampleLocation 7] (fun _ => [])
      (by decide) rfl rfl rfl rfl (fun _ hmk => absurd hmk (List.not_mem_nil _))).2.2.1⟩

end Sourcegraph
